import Mathlib

/-!
# NFSWHDReflections: the patch engine of `main.cpp`

A shallow embedding of `makeabs`, `AllAccess` and `Main` of `src/main.cpp`.

* Process memory is a map from byte addresses to byte values, page protection a map
  from page numbers (address / 4096) to protection flags.
* Every memory access, protection change and sleep of the worker thread is appended to
  an event trace, so that "exactly one write", "N sleeps" and "no write" are statements
  about the trace.
* The host process runs concurrently with the worker thread.  Inside the polling loop
  it is given two interference points per iteration: just before the pointer slot is
  re-read, and during the one-second sleep.
* `DWORD` arithmetic is arithmetic on `Nat` modulo `2 ^ 32`.
* A finite `double` is its rational value, with negative zero kept apart from positive
  zero; the conversion to the bit pattern of a single-precision float is a parameter
  `f32`.
-/

namespace NFSWHDReflections

/-! ## Configuration document -/

/-- A finite `double`: its rational value, with `-0.0` (`negZero`) kept apart from `0.0`
(`ofRat 0`), which have different bit patterns. -/
inductive Double where
  | negZero
  | ofRat (q : ℚ)
  deriving DecidableEq

/-- The numeric value of a double; both zeros have the value 0. -/
def Double.toRat : Double → ℚ
  | .negZero => 0
  | .ofRat q => q

/-- A parsed JSON value as the configuration document holds it.  An integer literal is
`int`, a literal with a fraction or exponent is `double`. -/
inductive Value where
  | null
  | bool (b : Bool)
  | int (z : Int)
  | double (d : Double)
  | string (s : String)
  | array (xs : List Value)
  | object (ms : List (String × Value))

/-- Modelled from the spec: the JSON library's `operator[]` is not part of this
repository.  It yields the first member of that name; on a value that is not an object,
or an object without such a member, the access fails (a configuration error, fatal to
the run). -/
def Value.member (v : Value) (name : String) : Option Value :=
  match v with
  | .object ms => ms.lookup name
  | _ => none

/-- Modelled from the spec: the JSON library's `GetUint` is not part of this repository.
It decodes an unsigned 32-bit integer; any other value is a configuration error. -/
def Value.GetUint : Value → Option Nat
  | .int z => if 0 ≤ z ∧ z.toNat < 4294967296 then some z.toNat else none
  | _ => none

/-- Modelled from the spec: the JSON library's `GetBool` is not part of this repository.
It decodes a boolean; any other value is a configuration error. -/
def Value.GetBool : Value → Option Bool
  | .bool b => some b
  | _ => none

/-- Modelled from the spec: the JSON library's `GetDouble` is not part of this
repository.  It decodes any number to a (finite) double; any other value is a
configuration error. -/
def Value.GetDouble : Value → Option Double
  | .int z => some (Double.ofRat (z : ℚ))
  | .double d => some d
  | _ => none

/-- The expression `v[name].GetUint()`. -/
def uintField (v : Value) (name : String) : Option Nat :=
  (v.member name).bind Value.GetUint

/-- The expression `v[name].GetBool()`. -/
def boolField (v : Value) (name : String) : Option Bool :=
  (v.member name).bind Value.GetBool

/-- The expression `v[name].GetDouble()`. -/
def doubleField (v : Value) (name : String) : Option Double :=
  (v.member name).bind Value.GetDouble

/-- The function `std::clamp(v, lo, hi)`: `(v < lo) ? lo : (hi < v) ? hi : v`.  Doubles
compare by value, the two zeros as equal; the result is the argument itself, sign of
zero included. -/
def clamp (v lo hi : Double) : Double :=
  if v.toRat < lo.toRat then lo else if hi.toRat < v.toRat then hi else v

/-! ## Process state -/

/-- What the worker thread does to the process, in order. -/
inductive Event where
  | protect (addr size newProt : Nat)
  | read (addr size : Nat)
  | write (addr size value : Nat)
  | sleep
  deriving DecidableEq, Repr

/-- Process memory, page protections and the trace of the worker thread so far. -/
structure State where
  mem : Nat → Nat
  prot : Nat → Nat
  trace : List Event

/-- The protection constant `PAGE_EXECUTE_READWRITE`. -/
def PAGE_EXECUTE_READWRITE : Nat := 0x40

/-- The page an address lies in. -/
def pageOf (addr : Nat) : Nat := addr / 4096

/-- The protection map after the pages that hold a byte of `[addr, addr + size)` have
been given the protection `newProt`. -/
def setProt (prot : Nat → Nat) (addr size newProt : Nat) : Nat → Nat :=
  fun pg => if pageOf addr ≤ pg ∧ pg * 4096 < addr + size then newProt else prot pg

/-- Modelled from the spec: the platform call `VirtualProtect(addr, size, newProt, &old)`
is not part of this repository.  A successful call gives every page that holds a byte of
`[addr, addr + size)` the protection `newProt` and returns the former protection of the
first page of the range. -/
def VirtualProtect (st : State) (addr size newProt : Nat) : State × Nat :=
  ({ st with
      prot := setProt st.prot addr size newProt
      trace := st.trace ++ [Event.protect addr size newProt] },
   st.prot (pageOf addr))

/-- Byte `i` of the little-endian encoding of `v`. -/
def byteAt (v i : Nat) : Nat := v / 256 ^ i % 256

/-- Memory after the `size` low bytes of `value` have been put at `addr`, least
significant byte first. -/
def setBytes (mem : Nat → Nat) (addr size value : Nat) : Nat → Nat :=
  fun a => if addr ≤ a ∧ a < addr + size then byteAt value (a - addr) else mem a

/-- A store of `size` bytes through a pointer: `*reinterpret_cast<T*>(addr) = value`. -/
def store (st : State) (addr size value : Nat) : State :=
  { st with
      mem := setBytes st.mem addr size value
      trace := st.trace ++ [Event.write addr size value] }

/-- The 32-bit little-endian value held at `addr`. -/
def peek32 (m : Nat → Nat) (addr : Nat) : Nat :=
  m addr % 256 + 256 * (m (addr + 1) % 256) + 65536 * (m (addr + 2) % 256)
    + 16777216 * (m (addr + 3) % 256)

/-- A load through a pointer: `*reinterpret_cast<DWORD*>(addr)`. -/
def load32 (st : State) (addr : Nat) : Nat × State :=
  (peek32 st.mem addr, { st with trace := st.trace ++ [Event.read addr 4] })

/-! ## `makeabs` and `AllAccess` -/

/-- The function `makeabs(rva)`: `_base + rva` in `DWORD` arithmetic, `base` being the
cached module handle. -/
def makeabs (base rva : Nat) : Nat := (base + rva) % 4294967296

/-- The fields of `struct AllAccess`. -/
structure AllAccess where
  mAddr : Nat
  mSize : Nat
  mOldProtect : Nat

/-- The constructor `AllAccess(rva, size, makeAbs)`. -/
def AllAccess.ctor (base rva size : Nat) (makeAbs : Bool) (st : State) : AllAccess × State :=
  let addr := if makeAbs then makeabs base rva else rva
  let r := VirtualProtect st addr size PAGE_EXECUTE_READWRITE
  ({ mAddr := addr, mSize := size, mOldProtect := r.2 }, r.1)

/-- The constructor `AllAccess(rva, size)`, which delegates with `makeAbs = true`. -/
def AllAccess.ctor2 (base rva size : Nat) (st : State) : AllAccess × State :=
  AllAccess.ctor base rva size true st

/-- The destructor `~AllAccess()`. -/
def AllAccess.dtor (a : AllAccess) (st : State) : State :=
  (VirtualProtect st a.mAddr a.mSize a.mOldProtect).1

/-! ## `Main` -/

/-- The patch steps of `Main`, in source order. -/
inductive Step where
  | resolution
  | lod
  | drawDistance
  | chrome
  deriving DecidableEq, Repr

/-- How far a run got: it completed, it was terminated by a failed decode inside a
step, or it is still polling when the observation ends. -/
inductive Result where
  | done (st : State)
  | failed (step : Step) (st : State)
  | searching (st : State)

/-- The process state a result carries. -/
def Result.state : Result → State
  | .done st => st
  | .failed _ st => st
  | .searching st => st

/-- Sequencing of steps: the next step runs only after a completed one. -/
def Result.andThen (r : Result) (next : State → Result) : Result :=
  match r with
  | .done st => next st
  | .failed s st => .failed s st
  | .searching st => .searching st

/-- The block "Reflection resolution" of `Main`. -/
def resolutionPatch (cfg : Value) (base : Nat) (st : State) : Result :=
  let a1 := AllAccess.ctor2 base 0x22CA04 2 st
  let a2 := AllAccess.ctor2 base 0x22CA07 4 a1.2
  let st1 := store a2.2 a1.1.mAddr 2 0x9090
  match uintField cfg "ReflectionResolution" with
  | none => .failed .resolution st1
  | some r =>
    let st2 := store st1 a2.1.mAddr 4 r
    .done (a1.1.dtor (a2.1.dtor st2))

/-- The block "Better reflection LODs" of `Main`. -/
def lodPatch (cfg : Value) (base : Nat) (st : State) : Result :=
  match boolField cfg "BetterReflectionLODs" with
  | none => .failed .lod st
  | some false => .done st
  | some true =>
    let a1 := AllAccess.ctor2 base 0x89E48C 1 st
    let a2 := AllAccess.ctor2 base 0x33D8BF 1 a1.2
    let a3 := AllAccess.ctor2 base 0x33DEBD 4 a2.2
    let st1 := store a3.2 a1.1.mAddr 1 0
    let st2 := store st1 a2.1.mAddr 1 0x10
    let st3 := store st2 a3.1.mAddr 4 0x8002
    .done (a1.1.dtor (a2.1.dtor (a3.1.dtor st3)))

/-- The block "Better reflection draw distance" of `Main`; `f32 (.ofRat 16000)` is the
bit pattern of the literal `16000.0f`. -/
def drawDistancePatch (f32 : Double → Nat) (cfg : Value) (base : Nat) (st : State) : Result :=
  match boolField cfg "BetterReflectionDrawDistance" with
  | none => .failed .drawDistance st
  | some false => .done st
  | some true =>
    let a1 := AllAccess.ctor2 base 0x882D44 4 st
    let st1 := store a1.2 a1.1.mAddr 4 (f32 (.ofRat 16000))
    .done (a1.1.dtor st1)

/-- The string literal `"CHROME"` with its terminator. -/
def chromeLit : List Nat := [67, 72, 82, 79, 77, 69, 0]

/-- The call `strcmp(p, lit)` against a NUL-terminated literal: bytes are read from
memory one at a time up to the first difference or the terminator. -/
def strcmp (st : State) (p : Nat) : List Nat → Int × State
  | [] => (0, st)
  | c :: cs =>
    let st1 : State := { st with trace := st.trace ++ [Event.read p 1] }
    if st.mem p % 256 = c then
      if c = 0 then (0, st1) else strcmp st1 (p + 1) cs
    else ((st.mem p % 256 : Int) - (c : Int), st1)

/-- The `DWORD` subtraction `b - off`. -/
def subDW (b off : Nat) : Nat := (b + 4294967296 - off) % 4294967296

/-- The loop condition `!_base || strcmp((const char*)(_base - 0xE24), "CHROME") != 0`;
the right operand is evaluated only for a non-null `_base`. -/
def loopCond (b : Nat) (st : State) : Bool × State :=
  if b = 0 then (true, st)
  else
    let r := strcmp st (subDW b 0xE24) chromeLit
    (r.1 != 0, r.2)

/-- What the host process does to memory while the worker thread polls: before the
`k`-th re-read of the pointer slot and during the `k`-th sleep. -/
structure Host where
  beforeRead : Nat → (Nat → Nat) → (Nat → Nat)
  duringSleep : Nat → (Nat → Nat) → (Nat → Nat)

/-- The two states of the discovery loop, `FOUND` carrying the discovered pointer. -/
inductive Poll where
  | searching (st : State)
  | found (b : Nat) (st : State)

/-- The `while` loop of the chrome block, observed for at most `fuel` evaluations of its
condition.  `k` counts the iterations done so far, `b` is the current `_base`. -/
def pollLoop (host : Host) (slot : Nat) : Nat → Nat → Nat → State → Poll
  | 0, _, _, st => .searching st
  | fuel + 1, k, b, st =>
    let c := loopCond b st
    if c.1 then
      let st1 : State := { c.2 with mem := host.beforeRead (k + 1) c.2.mem }
      let r := load32 st1 slot
      let st2 : State :=
        { r.2 with mem := host.duringSleep (k + 1) r.2.mem, trace := r.2.trace ++ [Event.sleep] }
      pollLoop host slot fuel (k + 1) r.1 st2
    else .found b c.2

/-- The start of the enabled chrome block: the scope over the pointer slot, the first
read of the slot and the loop.  The scope is returned for its later destruction. -/
def chromeDiscover (host : Host) (fuel base : Nat) (st : State) : AllAccess × Poll :=
  let pBase := AllAccess.ctor2 base 0x8B4208 4 st
  let r := load32 pBase.2 pBase.1.mAddr
  (pBase.1, pollLoop host pBase.1.mAddr fuel 0 r.1 r.2)

/-- The rest of the enabled chrome block once the loop has been left with `_base = b`:
four scopes, the two decodes, four stores, and the scopes' destruction. -/
def chromeFound (f32 : Double → Nat) (chrome : Value) (base b : Nat) (st : State) : Result :=
  let sat1 := AllAccess.ctor base (subDW b 0xDC0) 4 false st
  let sat2 := AllAccess.ctor base (subDW b 0xDD0) 4 false sat1.2
  let eff1 := AllAccess.ctor base (subDW b 0xD60) 4 false sat2.2
  let eff2 := AllAccess.ctor base (subDW b 0xD70) 4 false eff1.2
  match doubleField chrome "Saturation" with
  | none => .failed .chrome eff2.2
  | some s =>
    let satV := f32 (clamp s (.ofRat (-1)) (.ofRat 1))
    match doubleField chrome "ReflectionIntensity" with
    | none => .failed .chrome eff2.2
    | some i =>
      let effV := f32 (clamp i (.ofRat (-10)) (.ofRat 10))
      let st1 := store eff2.2 sat1.1.mAddr 4 satV
      let st2 := store st1 sat2.1.mAddr 4 satV
      let st3 := store st2 eff1.1.mAddr 4 effV
      let st4 := store st3 eff2.1.mAddr 4 effV
      .done (sat1.1.dtor (sat2.1.dtor (eff1.1.dtor (eff2.1.dtor st4))))

/-- The block "Better chrome" of `Main`. -/
def chromePatch (f32 : Double → Nat) (host : Host) (fuel : Nat) (cfg : Value) (base : Nat)
    (st : State) : Result :=
  match cfg.member "BetterChrome" with
  | none => .failed .chrome st
  | some chrome =>
    match boolField chrome "Enabled" with
    | none => .failed .chrome st
    | some false => .done st
    | some true =>
      let d := chromeDiscover host fuel base st
      match d.2 with
      | .searching st1 => .searching st1
      | .found b st1 =>
        match chromeFound f32 chrome base b st1 with
        | .done st2 => .done (d.1.dtor st2)
        | r => r

/-- The three steps of `Main` that need no discovery. -/
def staticPatches (f32 : Double → Nat) (cfg : Value) (base : Nat) (st : State) : Result :=
  ((resolutionPatch cfg base st).andThen (lodPatch cfg base)).andThen
    (drawDistancePatch f32 cfg base)

/-- The patch sequence of `Main`, run on the already loaded configuration document. -/
def Main (f32 : Double → Nat) (host : Host) (fuel : Nat) (cfg : Value) (base : Nat)
    (st : State) : Result :=
  (staticPatches f32 cfg base st).andThen (chromePatch f32 host fuel cfg base)

/-! ## Observations on runs, used to state the properties -/

/-- The process state a poll result carries. -/
def Poll.state : Poll → State
  | .searching st => st
  | .found _ st => st

/-- Whether an event is a store. -/
def Event.isWrite : Event → Bool
  | .write _ _ _ => true
  | _ => false

/-- The stores of a trace, in order. -/
def writesOf (t : List Event) : List Event := t.filter Event.isWrite

/-- The number of sleeps in a trace. -/
def sleepsOf (t : List Event) : Nat := t.count Event.sleep

/-- The number of pointer-sized reads of the address `slot` in a trace. -/
def pollsOf (slot : Nat) (t : List Event) : Nat := t.count (Event.read slot 4)

/-- Memory as the host leaves it by the `k`-th evaluation of the loop condition, when
the worker thread itself stores nothing: `m0` at the first evaluation, and after each
further iteration what the host did before the re-read and during the sleep. -/
def memAtCheck (host : Host) (m0 : Nat → Nat) : Nat → (Nat → Nat)
  | 0 => m0
  | k + 1 => host.duringSleep (k + 1) (host.beforeRead (k + 1) (memAtCheck host m0 k))

/-- The value the `k`-th read of the pointer slot returns (`k = 0` is the read before
the loop). -/
def readAt (host : Host) (slot : Nat) (m0 : Nat → Nat) : Nat → Nat
  | 0 => peek32 m0 slot
  | k + 1 => peek32 (host.beforeRead (k + 1) (memAtCheck host m0 k)) slot

/-- The bytes of memory `m` from address `p` on are the bytes `lit`. -/
def bytesAt (m : Nat → Nat) (p : Nat) : List Nat → Prop
  | [] => True
  | c :: cs => m p % 256 = c ∧ bytesAt m (p + 1) cs

/-- The byte range `[addr, addr + size)` lies within one page. -/
def onePage (addr size : Nat) : Prop := 0 < size ∧ addr % 4096 + size ≤ 4096

/-- The address `a` lies in the byte range `[addr, addr + size)`. -/
def inBytes (addr size a : Nat) : Prop := addr ≤ a ∧ a < addr + size

/-- The address `a` lies in one of the four chrome fields below the pointer `b`. -/
def inChromeFields (b a : Nat) : Prop :=
  inBytes (subDW b 0xDC0) 4 a ∨ inBytes (subDW b 0xDD0) 4 a ∨
    inBytes (subDW b 0xD60) 4 a ∨ inBytes (subDW b 0xD70) 4 a

/-- The address `a` lies in one of the three slots of the LOD patch. -/
def inLodSlots (base a : Nat) : Prop :=
  inBytes (makeabs base 0x89E48C) 1 a ∨ inBytes (makeabs base 0x33D8BF) 1 a ∨
    inBytes (makeabs base 0x33DEBD) 4 a

/-- The host leaves the byte at address `a` alone. -/
def Host.keeps (host : Host) (a : Nat) : Prop :=
  ∀ k m, host.beforeRead k m a = m a ∧ host.duringSleep k m a = m a

/-- The `k`-th evaluation of the loop condition keeps the loop going: the pointer read
is null, or the bytes below it are not the signature. -/
def keepsPolling (host : Host) (slot : Nat) (m0 : Nat → Nat) (k : Nat) : Prop :=
  readAt host slot m0 k = 0 ∨
    ¬ bytesAt (memAtCheck host m0 k) (subDW (readAt host slot m0 k) 0xE24) chromeLit

/-! ## Sample inputs -/

/-- The `BetterChrome` group of the default configuration. -/
def defaultChrome : Value :=
  .object [("Enabled", .bool true), ("Saturation", .double (.ofRat (3 / 40))),
    ("ReflectionIntensity", .double (.ofRat (27 / 4)))]

/-- The default configuration literal `_configDefFile` of `Main`. -/
def defaultConfig : Value :=
  .object [("ReflectionResolution", .int 1024), ("BetterReflectionLODs", .bool true),
    ("BetterReflectionDrawDistance", .bool true), ("BetterChrome", defaultChrome)]

/-- The default configuration with `BetterReflectionLODs` and `BetterChrome.Enabled`
false. -/
def quietConfig : Value :=
  .object [("ReflectionResolution", .int 1024), ("BetterReflectionLODs", .bool false),
    ("BetterReflectionDrawDistance", .bool true),
    ("BetterChrome", .object [("Enabled", .bool false),
      ("Saturation", .double (.ofRat (3 / 40))),
      ("ReflectionIntensity", .double (.ofRat (27 / 4)))])]

/-- A `BetterChrome` group with Saturation `-0.0` and ReflectionIntensity `0.0`. -/
def signedZeroChrome : Value :=
  .object [("Enabled", .bool true), ("Saturation", .double .negZero),
    ("ReflectionIntensity", .double (.ofRat 0))]

/-- A `BetterChrome` group with a string where `Saturation` should be a number. -/
def badSaturationChrome : Value :=
  .object [("Enabled", .bool true), ("Saturation", .string "high"),
    ("ReflectionIntensity", .double (.ofRat (27 / 4)))]

/-- The default configuration with the group `badSaturationChrome`. -/
def badSaturationConfig : Value :=
  .object [("ReflectionResolution", .int 1024), ("BetterReflectionLODs", .bool true),
    ("BetterReflectionDrawDistance", .bool true), ("BetterChrome", badSaturationChrome)]

/-- The default configuration without `ReflectionResolution`. -/
def noResolutionConfig : Value :=
  .object [("BetterReflectionLODs", .bool true), ("BetterReflectionDrawDistance", .bool true),
    ("BetterChrome", defaultChrome)]

/-- A stand-in for the single-precision conversion in sample runs: the sign bit alone
for `-0.0`, the numerator of the value otherwise. -/
def sampleF32 : Double → Nat
  | .negZero => 0x80000000
  | .ofRat q => q.num.toNat

/-- A host that never touches memory. -/
def idleHost : Host := { beforeRead := fun _ m => m, duringSleep := fun _ m => m }

/-- A process with zeroed memory, every page `PAGE_EXECUTE_READ`, and an empty trace. -/
def blankState : State := { mem := fun _ => 0, prot := fun _ => 0x20, trace := [] }

/-- A process with zeroed memory, every page of protection `p`, and an empty trace. -/
def uniformState (p : Nat) : State := { mem := fun _ => 0, prot := fun _ => p, trace := [] }

/-- The first resolution scope of a module loaded at 0x400000, constructed in
`uniformState p`. -/
def sampleScope (p : Nat) : AllAccess × State :=
  AllAccess.ctor 0x400000 0x22CA04 2 true (uniformState p)

/-- Zeroed memory in which the 4 bytes at `slot` hold the pointer `p` and the 7 bytes at
`p - 0xE24` hold "CHROME" with its terminator. -/
def chromeMemory (slot p : Nat) : Nat → Nat :=
  setBytes (setBytes (fun _ => 0) slot 4 p) (subDW p 0xE24) 7 0x454D4F524843

/-- A process whose memory is `chromeMemory slot p`. -/
def chromeState (slot p : Nat) : State :=
  { mem := chromeMemory slot p, prot := fun _ => 0x20, trace := [] }

/-- A host that installs `chromeMemory slot p` during the second sleep and is idle
otherwise. -/
def lateHost (slot p : Nat) : Host :=
  { beforeRead := fun _ m => m,
    duringSleep := fun k m => if k = 2 then chromeMemory slot p else m }

/-! # Lemmas -/

/-! ## Interface lemmas of the primitives -/

theorem ctor_fst (base rva size : Nat) (st : State) (m : Bool) :
    (AllAccess.ctor base rva size m st).1 =
      { mAddr := if m then makeabs base rva else rva, mSize := size,
        mOldProtect := st.prot (pageOf (if m then makeabs base rva else rva)) } :=
  Eq.trans rfl rfl

theorem ctor_snd (base rva size : Nat) (st : State) (m : Bool) :
    (AllAccess.ctor base rva size m st).2 =
      { mem := st.mem,
        prot := setProt st.prot (if m then makeabs base rva else rva) size PAGE_EXECUTE_READWRITE,
        trace := st.trace ++
          [Event.protect (if m then makeabs base rva else rva) size PAGE_EXECUTE_READWRITE] } :=
  Eq.trans rfl rfl

theorem ctor2_fst (base rva size : Nat) (st : State) :
    (AllAccess.ctor2 base rva size st).1 =
      { mAddr := makeabs base rva, mSize := size,
        mOldProtect := st.prot (pageOf (makeabs base rva)) } :=
  Eq.trans rfl rfl

theorem ctor2_snd (base rva size : Nat) (st : State) :
    (AllAccess.ctor2 base rva size st).2 =
      { mem := st.mem,
        prot := setProt st.prot (makeabs base rva) size PAGE_EXECUTE_READWRITE,
        trace := st.trace ++ [Event.protect (makeabs base rva) size PAGE_EXECUTE_READWRITE] } :=
  Eq.trans rfl rfl

theorem dtor_eq (a : AllAccess) (st : State) :
    a.dtor st =
      { mem := st.mem,
        prot := setProt st.prot a.mAddr a.mSize a.mOldProtect,
        trace := st.trace ++ [Event.protect a.mAddr a.mSize a.mOldProtect] } :=
  Eq.trans rfl rfl

theorem store_eq (st : State) (addr size v : Nat) :
    store st addr size v =
      { mem := setBytes st.mem addr size v, prot := st.prot,
        trace := st.trace ++ [Event.write addr size v] } :=
  Eq.trans rfl rfl

theorem setBytes_in (m : Nat → Nat) (addr size v a : Nat) (h : addr ≤ a ∧ a < addr + size) :
    setBytes m addr size v a = byteAt v (a - addr) := by
  unfold setBytes
  exact if_pos h

theorem setBytes_out (m : Nat → Nat) (addr size v a : Nat) (h : ¬ (addr ≤ a ∧ a < addr + size)) :
    setBytes m addr size v a = m a := by
  unfold setBytes
  exact if_neg h

theorem getUint_nat (r : Nat) (hr : r < 4294967296) :
   Value.GetUint (Value.int (r : Int)) = some r := by
  have h2 : 0 ≤ (r : Int) ∧ (r : Int).toNat < 4294967296 := ⟨Int.natCast_nonneg r, by simpa using hr⟩
  simp only [Value.GetUint]
  rw [if_pos h2, Int.toNat_natCast]

theorem uintField_int (cfg : Value) (name : String) (r : Nat)
    (hm : cfg.member name = some (Value.int (r : Int))) (hr : r < 4294967296) :
    uintField cfg name = some r := by
  unfold uintField
  rw [hm]
  exact getUint_nat r hr

/-! ## `strcmp` -/

theorem strcmp_mem (lit : List Nat) : ∀ (st : State) (p : Nat), (strcmp st p lit).2.mem = st.mem := by
  induction lit with
  | nil => intro st p; exact Eq.trans rfl rfl
  | cons c cs ih =>
    intro st p
    unfold strcmp
    split_ifs
    · exact Eq.trans rfl rfl
    · rw [ih]
    · exact Eq.trans rfl rfl

theorem strcmp_prot (lit : List Nat) : ∀ (st : State) (p : Nat), (strcmp st p lit).2.prot = st.prot := by
  induction lit with
  | nil => intro st p; exact Eq.trans rfl rfl
  | cons c cs ih =>
    intro st p
    unfold strcmp
    split_ifs
    · exact Eq.trans rfl rfl
    · rw [ih]
    · exact Eq.trans rfl rfl

/-- The trace after `strcmp` is the trace before it followed by one-byte reads. -/
theorem strcmp_trace (lit : List Nat) : ∀ (st : State) (p : Nat),
    ∃ l : List Event, (strcmp st p lit).2.trace = st.trace ++ l ∧
      ∀ e ∈ l, ∃ a, e = Event.read a 1 := by
  induction lit with
  | nil => intro st p; exact ⟨[], by simp [strcmp], by simp⟩
  | cons c cs ih =>
    intro st p
    unfold strcmp
    split_ifs
    · exact ⟨[Event.read p 1], Eq.trans rfl rfl, by simp⟩
    · obtain ⟨l, hl, hr⟩ := ih { st with trace := st.trace ++ [Event.read p 1] } (p + 1)
      refine ⟨Event.read p 1 :: l, ?_, ?_⟩
      · rw [hl]; simp
      · intro e he
        rcases List.mem_cons.mp he with h | h
        · exact ⟨p, h⟩
        · exact hr e h
    · exact ⟨[Event.read p 1], Eq.trans rfl rfl, by simp⟩

theorem strcmp_chrome_zero (st : State) (p : Nat) :
    (strcmp st p chromeLit).1 = 0 ↔ bytesAt st.mem p chromeLit := by
  simp only [chromeLit, strcmp, bytesAt]
  constructor
  · intro h
    split_ifs at h <;> first | omega | simp_all
  · intro h
    obtain ⟨h0, h1, h2, h3, h4, h5, h6, -⟩ := h
    simp [h0, h1, h2, h3, h4, h5, h6]

/-! ## Trace observations -/

theorem writesOf_append (t l : List Event) : writesOf (t ++ l) = writesOf t ++ writesOf l := by
  simp [writesOf]

theorem sleepsOf_append (t l : List Event) : sleepsOf (t ++ l) = sleepsOf t + sleepsOf l := by
  simp [sleepsOf]

theorem pollsOf_append (slot : Nat) (t l : List Event) :
    pollsOf slot (t ++ l) = pollsOf slot t + pollsOf slot l := by
  simp [pollsOf]

theorem writesOf_byteReads (l : List Event) (h : ∀ e ∈ l, ∃ a, e = Event.read a 1) :
    writesOf l = [] := by
  unfold writesOf
  rw [List.filter_eq_nil_iff]
  intro e he
  obtain ⟨a, rfl⟩ := h e he
  simp [Event.isWrite]

theorem sleepsOf_byteReads (l : List Event) (h : ∀ e ∈ l, ∃ a, e = Event.read a 1) :
    sleepsOf l = 0 := by
  unfold sleepsOf
  rw [List.count_eq_zero]
  intro he
  obtain ⟨a, ha⟩ := h _ he
  exact Event.noConfusion ha

theorem pollsOf_byteReads (slot : Nat) (l : List Event) (h : ∀ e ∈ l, ∃ a, e = Event.read a 1) :
    pollsOf slot l = 0 := by
  unfold pollsOf
  rw [List.count_eq_zero]
  intro he
  obtain ⟨a, ha⟩ := h _ he
  injection ha with h1 h2
  omega

/-! ## The loop condition -/

theorem loopCond_null (st : State) : loopCond 0 st = (true, st) := by
  simp [loopCond]

theorem loopCond_mem (b : Nat) (st : State) : (loopCond b st).2.mem = st.mem := by
  unfold loopCond
  split_ifs
  · exact Eq.trans rfl rfl
  · exact strcmp_mem _ _ _

theorem loopCond_prot (b : Nat) (st : State) : (loopCond b st).2.prot = st.prot := by
  unfold loopCond
  split_ifs
  · exact Eq.trans rfl rfl
  · exact strcmp_prot _ _ _

theorem loopCond_trace (b : Nat) (st : State) :
    ∃ l : List Event, (loopCond b st).2.trace = st.trace ++ l ∧
      ∀ e ∈ l, ∃ a, e = Event.read a 1 := by
  unfold loopCond
  split_ifs
  · exact ⟨[], by simp, by simp⟩
  · exact strcmp_trace _ _ _

theorem loopCond_fst (b : Nat) (st : State) :
    (loopCond b st).1 = true ↔ (b = 0 ∨ ¬ bytesAt st.mem (subDW b 0xE24) chromeLit) := by
  unfold loopCond
  split_ifs with h
  · simp [h]
  · simp [h, strcmp_chrome_zero]

/-! ## The polling loop -/

theorem pollLoop_zero (host : Host) (slot k b : Nat) (st : State) :
    pollLoop host slot 0 k b st = Poll.searching st := by
  unfold pollLoop
  exact Eq.trans rfl rfl

theorem pollLoop_continue (host : Host) (slot fuel k b : Nat) (st : State)
    (hc : (loopCond b st).1 = true) :
    pollLoop host slot (fuel + 1) k b st =
      pollLoop host slot fuel (k + 1) (peek32 (host.beforeRead (k + 1) st.mem) slot)
        { mem := host.duringSleep (k + 1) (host.beforeRead (k + 1) st.mem),
          prot := st.prot,
          trace := (loopCond b st).2.trace ++ [Event.read slot 4] ++ [Event.sleep] } := by
  rw [pollLoop]
  simp only [hc, if_true, load32, loopCond_mem, loopCond_prot]

theorem pollLoop_leave (host : Host) (slot fuel k b : Nat) (st : State)
    (hc : (loopCond b st).1 = false) :
    pollLoop host slot (fuel + 1) k b st = Poll.found b (loopCond b st).2 := by
  rw [pollLoop]
  simp only [hc, Bool.false_eq_true, if_false]

/-- What the loop leaves alone, whatever the host does. -/
theorem pollLoop_inv (host : Host) (slot : Nat) : ∀ (fuel k b : Nat) (st : State),
    (pollLoop host slot fuel k b st).state.prot = st.prot ∧
    writesOf (pollLoop host slot fuel k b st).state.trace = writesOf st.trace ∧
    (∀ a, a ≠ slot →
      pollsOf a (pollLoop host slot fuel k b st).state.trace = pollsOf a st.trace) ∧
    (∀ a, host.keeps a → (pollLoop host slot fuel k b st).state.mem a = st.mem a) := by
  intro fuel
  induction fuel with
  | zero => intro k b st; simp [pollLoop_zero, Poll.state]
  | succ n ih =>
    intro k b st
    obtain ⟨l, hl, hr⟩ := loopCond_trace b st
    by_cases hc : (loopCond b st).1 = true
    · rw [pollLoop_continue host slot n k b st hc]
      obtain ⟨h1, h2, h3, h4⟩ := ih (k + 1) (peek32 (host.beforeRead (k + 1) st.mem) slot)
        { mem := host.duringSleep (k + 1) (host.beforeRead (k + 1) st.mem),
          prot := st.prot,
          trace := (loopCond b st).2.trace ++ [Event.read slot 4] ++ [Event.sleep] }
      refine ⟨h1, ?_, ?_, ?_⟩
      · rw [h2]; simp only [hl, writesOf_append, writesOf_byteReads l hr]
        simp [writesOf, Event.isWrite]
      · intro a ha
        rw [h3 a ha]; simp only [hl, pollsOf_append, pollsOf_byteReads a l hr]
        simp [pollsOf, ha]
      · intro a ha
        rw [h4 a ha]
        simp only [(ha _ _).1, (ha _ _).2]
    · rw [pollLoop_leave host slot n k b st (by simpa using hc)]
      simp only [Poll.state]
      refine ⟨loopCond_prot b st, ?_, ?_, ?_⟩
      · rw [hl, writesOf_append, writesOf_byteReads l hr]; simp
      · intro a _
        rw [hl, pollsOf_append, pollsOf_byteReads a l hr]; simp
      · intro a _; rw [loopCond_mem]

/-- As long as the condition holds the loop follows the host's trajectory: after `n`
iterations it has slept `n` times and re-read the slot `n` times. -/
theorem pollLoop_steps (host : Host) (slot : Nat) (m0 : Nat → Nat) : ∀ (n fuel k : Nat) (st : State),
    st.mem = memAtCheck host m0 k →
    (∀ j, k ≤ j → j < k + n → keepsPolling host slot m0 j) →
    ∃ st1 : State, pollLoop host slot (n + fuel) k (readAt host slot m0 k) st =
        pollLoop host slot fuel (k + n) (readAt host slot m0 (k + n)) st1 ∧
      st1.mem = memAtCheck host m0 (k + n) ∧ st1.prot = st.prot ∧
      writesOf st1.trace = writesOf st.trace ∧
      sleepsOf st1.trace = sleepsOf st.trace + n ∧
      pollsOf slot st1.trace = pollsOf slot st.trace + n := by
  intro n
  induction n with
  | zero =>
    intro fuel k st hm _
    exact ⟨st, by simp, hm, rfl, rfl, rfl, rfl⟩
  | succ n ih =>
    intro fuel k st hm hk
    obtain ⟨l, hl, hr⟩ := loopCond_trace (readAt host slot m0 k) st
    have hc : (loopCond (readAt host slot m0 k) st).1 = true := by
      rw [loopCond_fst, hm]
      exact hk k (le_refl k) (by omega)
    have e1 : n + 1 + fuel = (n + fuel) + 1 := by omega
    rw [e1, pollLoop_continue host slot (n + fuel) k _ st hc]
    have hread : peek32 (host.beforeRead (k + 1) st.mem) slot = readAt host slot m0 (k + 1) := by
      rw [hm]; simp only [readAt]
    rw [hread]
    obtain ⟨st1, h1, h2, h3, h4, h5, h6⟩ := ih fuel (k + 1)
      { mem := host.duringSleep (k + 1) (host.beforeRead (k + 1) st.mem),
        prot := st.prot,
        trace := (loopCond (readAt host slot m0 k) st).2.trace ++ [Event.read slot 4] ++ [Event.sleep] }
      (by rw [hm]; simp only [memAtCheck])
      (fun j hj1 hj2 => hk j (by omega) (by omega))
    have e2 : k + 1 + n = k + (n + 1) := by omega
    rw [e2] at h1 h2
    refine ⟨st1, h1, h2, h3, ?_, ?_, ?_⟩
    · rw [h4]; simp only [hl, writesOf_append, writesOf_byteReads l hr]
      simp [writesOf, Event.isWrite]
    · rw [h5]; simp only [hl, sleepsOf_append, sleepsOf_byteReads l hr]
      simp [sleepsOf]; omega
    · rw [h6]; simp only [hl, pollsOf_append, pollsOf_byteReads slot l hr]
      simp [pollsOf]; omega

/-! ## Sequencing -/

theorem andThen_done (st : State) (next : State → Result) :
    (Result.done st).andThen next = next st := Eq.trans rfl rfl

theorem andThen_failed (s : Step) (st : State) (next : State → Result) :
    (Result.failed s st).andThen next = Result.failed s st := Eq.trans rfl rfl

theorem andThen_searching (st : State) (next : State → Result) :
    (Result.searching st).andThen next = Result.searching st := Eq.trans rfl rfl

theorem state_done (st : State) : (Result.done st).state = st := Eq.trans rfl rfl

theorem state_failed (s : Step) (st : State) : (Result.failed s st).state = st :=
  Eq.trans rfl rfl

theorem state_searching (st : State) : (Result.searching st).state = st := Eq.trans rfl rfl

/-- A byte that every step leaves alone is left alone by their sequence. -/
theorem andThen_mem (r : Result) (next : State → Result) (a : Nat)
    (h : ∀ st1, r = Result.done st1 → (next st1).state.mem a = st1.mem a) :
    (r.andThen next).state.mem a = r.state.mem a := by
  cases r with
  | done st1 => rw [andThen_done, state_done]; exact h st1 rfl
  | failed s st1 => rw [andThen_failed]
  | searching st1 => rw [andThen_searching]

/-! ## The static steps -/

theorem resolutionPatch_mem (cfg : Value) (base : Nat) (st : State) (a : Nat)
    (h1 : ¬ inBytes (makeabs base 0x22CA04) 2 a) (h2 : ¬ inBytes (makeabs base 0x22CA07) 4 a) :
    (resolutionPatch cfg base st).state.mem a = st.mem a := by
  unfold inBytes at h1 h2
  cases hu : uintField cfg "ReflectionResolution" with
  | none =>
    simp only [resolutionPatch, hu, ctor2_fst, ctor2_snd, store_eq, state_failed]
    rw [setBytes_out _ _ _ _ _ h1]
  | some r =>
    simp only [resolutionPatch, hu, ctor2_fst, ctor2_snd, dtor_eq, store_eq, state_done]
    rw [setBytes_out _ _ _ _ _ h2, setBytes_out _ _ _ _ _ h1]

theorem lodPatch_off (cfg : Value) (base : Nat) (st : State)
    (h : boolField cfg "BetterReflectionLODs" = some false) :
    lodPatch cfg base st = Result.done st := by
  simp only [lodPatch, h]

theorem lodPatch_mem (cfg : Value) (base : Nat) (st : State) (a : Nat)
    (h : ¬ inLodSlots base a) :
    (lodPatch cfg base st).state.mem a = st.mem a := by
  unfold inLodSlots inBytes at h
  push_neg at h
  cases hb : boolField cfg "BetterReflectionLODs" with
  | none => simp only [lodPatch, hb, state_failed]
  | some v =>
    cases v with
    | false => simp only [lodPatch, hb, state_done]
    | true =>
      simp only [lodPatch, hb, ctor2_fst, ctor2_snd, dtor_eq, store_eq, state_done]
      rw [setBytes_out, setBytes_out, setBytes_out]
      · intro hh; exact absurd hh.2 (not_lt.mpr (h.1 hh.1))
      · intro hh; exact absurd hh.2 (not_lt.mpr (h.2.1 hh.1))
      · intro hh; exact absurd hh.2 (not_lt.mpr (h.2.2 hh.1))

theorem drawDistancePatch_mem (f32 : Double → Nat) (cfg : Value) (base : Nat) (st : State) (a : Nat)
    (h : ¬ inBytes (makeabs base 0x882D44) 4 a) :
    (drawDistancePatch f32 cfg base st).state.mem a = st.mem a := by
  unfold inBytes at h
  cases hb : boolField cfg "BetterReflectionDrawDistance" with
  | none => simp only [drawDistancePatch, hb, state_failed]
  | some v =>
    cases v with
    | false => simp only [drawDistancePatch, hb, state_done]
    | true =>
      simp only [drawDistancePatch, hb, ctor2_fst, ctor2_snd, dtor_eq, store_eq, state_done]
      rw [setBytes_out _ _ _ _ _ h]

/-! ## The chrome step -/

theorem chromeDiscover_fst (host : Host) (fuel base : Nat) (st : State) :
    (chromeDiscover host fuel base st).1 =
      { mAddr := makeabs base 0x8B4208, mSize := 4,
        mOldProtect := st.prot (pageOf (makeabs base 0x8B4208)) } := by
  simp only [chromeDiscover, ctor2_fst]

theorem chromeDiscover_snd (host : Host) (fuel base : Nat) (st : State) :
    (chromeDiscover host fuel base st).2 =
      pollLoop host (makeabs base 0x8B4208) fuel 0 (peek32 st.mem (makeabs base 0x8B4208))
        { mem := st.mem,
          prot := setProt st.prot (makeabs base 0x8B4208) 4 PAGE_EXECUTE_READWRITE,
          trace := st.trace ++
            [Event.protect (makeabs base 0x8B4208) 4 PAGE_EXECUTE_READWRITE] ++
            [Event.read (makeabs base 0x8B4208) 4] } := by
  simp only [chromeDiscover, ctor2_fst, ctor2_snd, load32]

theorem chromeFound_mem (f32 : Double → Nat) (chrome : Value) (base b : Nat) (st : State) (a : Nat)
    (h : ¬ inChromeFields b a) :
    (chromeFound f32 chrome base b st).state.mem a = st.mem a := by
  unfold inChromeFields inBytes at h
  push_neg at h
  have h1 : ¬ (subDW b 0xDC0 ≤ a ∧ a < subDW b 0xDC0 + 4) :=
    fun hh => absurd hh.2 (not_lt.mpr (h.1 hh.1))
  have h2 : ¬ (subDW b 0xDD0 ≤ a ∧ a < subDW b 0xDD0 + 4) :=
    fun hh => absurd hh.2 (not_lt.mpr (h.2.1 hh.1))
  have h3 : ¬ (subDW b 0xD60 ≤ a ∧ a < subDW b 0xD60 + 4) :=
    fun hh => absurd hh.2 (not_lt.mpr (h.2.2.1 hh.1))
  have h4 : ¬ (subDW b 0xD70 ≤ a ∧ a < subDW b 0xD70 + 4) :=
    fun hh => absurd hh.2 (not_lt.mpr (h.2.2.2 hh.1))
  cases hs : doubleField chrome "Saturation" with
  | none => simp only [chromeFound, hs, ctor_fst, ctor_snd, state_failed]
  | some s =>
    cases hi : doubleField chrome "ReflectionIntensity" with
    | none => simp only [chromeFound, hs, hi, ctor_fst, ctor_snd, state_failed]
    | some i =>
      simp only [chromeFound, hs, hi, ctor_fst, ctor_snd, dtor_eq, store_eq, state_done,
        Bool.false_eq_true, if_false]
      rw [setBytes_out _ _ _ _ _ h4, setBytes_out _ _ _ _ _ h3, setBytes_out _ _ _ _ _ h2,
        setBytes_out _ _ _ _ _ h1]

theorem chromePatch_searching (f32 : Double → Nat) (host : Host) (fuel : Nat) (cfg chrome : Value)
    (base : Nat) (st st1 : State) (hm : cfg.member "BetterChrome" = some chrome)
    (hb : boolField chrome "Enabled" = some true)
    (hd : (chromeDiscover host fuel base st).2 = Poll.searching st1) :
    chromePatch f32 host fuel cfg base st = Result.searching st1 := by
  simp only [chromePatch, hm, hb, hd]

theorem chromePatch_found_done (f32 : Double → Nat) (host : Host) (fuel : Nat) (cfg chrome : Value)
    (base b : Nat) (st st1 st2 : State) (hm : cfg.member "BetterChrome" = some chrome)
    (hb : boolField chrome "Enabled" = some true)
    (hd : (chromeDiscover host fuel base st).2 = Poll.found b st1)
    (hf : chromeFound f32 chrome base b st1 = Result.done st2) :
    chromePatch f32 host fuel cfg base st = Result.done
      { mem := st2.mem,
        prot := setProt st2.prot (makeabs base 0x8B4208) 4 (st.prot (pageOf (makeabs base 0x8B4208))),
        trace := st2.trace ++ [Event.protect (makeabs base 0x8B4208) 4
          (st.prot (pageOf (makeabs base 0x8B4208)))] } := by
  simp only [chromePatch, hm, hb, hd, hf, chromeDiscover_fst, dtor_eq]

theorem chromePatch_found_failed (f32 : Double → Nat) (host : Host) (fuel : Nat) (cfg chrome : Value)
    (base b : Nat) (st st1 st2 : State) (s : Step) (hm : cfg.member "BetterChrome" = some chrome)
    (hb : boolField chrome "Enabled" = some true)
    (hd : (chromeDiscover host fuel base st).2 = Poll.found b st1)
    (hf : chromeFound f32 chrome base b st1 = Result.failed s st2) :
    chromePatch f32 host fuel cfg base st = Result.failed s st2 := by
  simp only [chromePatch, hm, hb, hd, hf]

theorem chromeFound_not_searching (f32 : Double → Nat) (chrome : Value) (base b : Nat)
    (st st2 : State) : chromeFound f32 chrome base b st ≠ Result.searching st2 := by
  unfold chromeFound
  cases doubleField chrome "Saturation" with
  | none => simp
  | some s =>
    cases doubleField chrome "ReflectionIntensity" with
    | none => simp
    | some i => simp

theorem chromePatch_mem (f32 : Double → Nat) (host : Host) (fuel : Nat) (cfg : Value) (base : Nat)
    (st : State) (a : Nat) (hhost : host.keeps a)
    (hf : ∀ b st1, (chromeDiscover host fuel base st).2 = Poll.found b st1 →
      ¬ inChromeFields b a) :
    (chromePatch f32 host fuel cfg base st).state.mem a = st.mem a := by
  cases hm : cfg.member "BetterChrome" with
  | none => simp only [chromePatch, hm, state_failed]
  | some chrome =>
    cases hb : boolField chrome "Enabled" with
    | none => simp only [chromePatch, hm, hb, state_failed]
    | some v =>
      cases v with
      | false => simp only [chromePatch, hm, hb, state_done]
      | true =>
        have hinv := (pollLoop_inv host (makeabs base 0x8B4208) fuel 0
          (peek32 st.mem (makeabs base 0x8B4208))
          { mem := st.mem,
            prot := setProt st.prot (makeabs base 0x8B4208) 4 PAGE_EXECUTE_READWRITE,
            trace := st.trace ++
              [Event.protect (makeabs base 0x8B4208) 4 PAGE_EXECUTE_READWRITE] ++
              [Event.read (makeabs base 0x8B4208) 4] }).2.2.2 a hhost
        rw [← chromeDiscover_snd] at hinv
        cases hd : (chromeDiscover host fuel base st).2 with
        | searching st1 =>
          rw [hd] at hinv
          rw [chromePatch_searching f32 host fuel cfg chrome base st st1 hm hb hd]
          exact hinv
        | found b st1 =>
          rw [hd] at hinv
          have hfm := chromeFound_mem f32 chrome base b st1 a (hf b st1 hd)
          simp only [Poll.state] at hinv
          cases hcf : chromeFound f32 chrome base b st1 with
          | done st2 =>
            rw [hcf] at hfm
            rw [chromePatch_found_done f32 host fuel cfg chrome base b st st1 st2 hm hb hd hcf]
            simp only [state_done] at hfm ⊢
            rw [hfm, hinv]
          | failed s st2 =>
            rw [hcf] at hfm
            rw [chromePatch_found_failed f32 host fuel cfg chrome base b st st1 st2 s hm hb hd hcf]
            simp only [state_failed] at hfm ⊢
            rw [hfm, hinv]
          | searching st2 => exact absurd hcf (chromeFound_not_searching _ _ _ _ _ _)

theorem boolField_bool (cfg : Value) (name : String) (v : Bool)
    (hm : cfg.member name = some (Value.bool v)) : boolField cfg name = some v := by
  unfold boolField
  rw [hm]
  exact Eq.trans rfl rfl

theorem resolutionPatch_done (cfg : Value) (base r : Nat) (st : State)
    (hu : uintField cfg "ReflectionResolution" = some r) :
    resolutionPatch cfg base st = Result.done (resolutionPatch cfg base st).state := by
  simp only [resolutionPatch, hu, state_done]

theorem resolutionPatch_done_mem (cfg : Value) (base r : Nat) (st : State)
    (hu : uintField cfg "ReflectionResolution" = some r) :
    (resolutionPatch cfg base st).state.mem =
      setBytes (setBytes st.mem (makeabs base 0x22CA04) 2 0x9090) (makeabs base 0x22CA07) 4 r := by
  simp only [resolutionPatch, hu, ctor2_fst, ctor2_snd, dtor_eq, store_eq, state_done]

theorem lodPatch_on (cfg : Value) (base : Nat) (st : State)
    (h : boolField cfg "BetterReflectionLODs" = some true) :
    lodPatch cfg base st = Result.done (lodPatch cfg base st).state := by
  simp only [lodPatch, h, state_done]

theorem lodPatch_on_mem (cfg : Value) (base : Nat) (st : State)
    (h : boolField cfg "BetterReflectionLODs" = some true) :
    (lodPatch cfg base st).state.mem =
      setBytes (setBytes (setBytes st.mem (makeabs base 0x89E48C) 1 0)
        (makeabs base 0x33D8BF) 1 0x10) (makeabs base 0x33DEBD) 4 0x8002 := by
  simp only [lodPatch, h, ctor2_fst, ctor2_snd, dtor_eq, store_eq, state_done]

/-- After the enabled LOD step its three slots hold 0x00, 0x10 and 0x00008002. -/
theorem lodPatch_on_slots (cfg : Value) (base : Nat) (st : State)
    (hb : boolField cfg "BetterReflectionLODs" = some true) :
    (lodPatch cfg base st).state.mem (makeabs base 0x89E48C) = 0x00 ∧
    (lodPatch cfg base st).state.mem (makeabs base 0x33D8BF) = 0x10 ∧
    ∀ i, i < 4 → (lodPatch cfg base st).state.mem (makeabs base 0x33DEBD + i) =
      byteAt 0x8002 i := by
  rw [lodPatch_on_mem cfg base st hb]
  refine ⟨?_, ?_, ?_⟩
  · have h3 : ¬ (makeabs base 0x33DEBD ≤ makeabs base 0x89E48C ∧
        makeabs base 0x89E48C < makeabs base 0x33DEBD + 4) := by unfold makeabs; omega
    have h2 : ¬ (makeabs base 0x33D8BF ≤ makeabs base 0x89E48C ∧
        makeabs base 0x89E48C < makeabs base 0x33D8BF + 1) := by unfold makeabs; omega
    have h1 : makeabs base 0x89E48C ≤ makeabs base 0x89E48C ∧
        makeabs base 0x89E48C < makeabs base 0x89E48C + 1 := by omega
    rw [setBytes_out _ _ _ _ _ h3, setBytes_out _ _ _ _ _ h2, setBytes_in _ _ _ _ _ h1,
      Nat.sub_self]
    norm_num [byteAt]
  · have h3 : ¬ (makeabs base 0x33DEBD ≤ makeabs base 0x33D8BF ∧
        makeabs base 0x33D8BF < makeabs base 0x33DEBD + 4) := by unfold makeabs; omega
    have h2 : makeabs base 0x33D8BF ≤ makeabs base 0x33D8BF ∧
        makeabs base 0x33D8BF < makeabs base 0x33D8BF + 1 := by omega
    rw [setBytes_out _ _ _ _ _ h3, setBytes_in _ _ _ _ _ h2, Nat.sub_self]
    norm_num [byteAt]
  · intro i hi
    have h3 : makeabs base 0x33DEBD ≤ makeabs base 0x33DEBD + i ∧
        makeabs base 0x33DEBD + i < makeabs base 0x33DEBD + 4 := by omega
    rw [setBytes_in _ _ _ _ _ h3, Nat.add_sub_cancel_left]

/-- A 32-bit value is what `peek32` reads back from its four bytes. -/
theorem peek32_of_bytes (m : Nat → Nat) (a v : Nat) (hv : v < 4294967296)
    (h : ∀ i, i < 4 → m (a + i) = byteAt v i) : peek32 m a = v := by
  have h0 := h 0 (by omega)
  have h1 := h 1 (by omega)
  have h2 := h 2 (by omega)
  have h3 := h 3 (by omega)
  rw [Nat.add_zero] at h0
  unfold peek32
  rw [h0, h1, h2, h3]
  unfold byteAt
  omega

/-- The LOD slots are not among the bytes of the resolution and draw-distance steps. -/
theorem lodSlots_apart (base a : Nat) (h : inLodSlots base a) :
    ¬ inBytes (makeabs base 0x22CA04) 2 a ∧ ¬ inBytes (makeabs base 0x22CA07) 4 a ∧
      ¬ inBytes (makeabs base 0x882D44) 4 a := by
  unfold inLodSlots inBytes makeabs at *
  omega

theorem Main_mem_after_lod (f32 : Double → Nat) (host : Host) (fuel : Nat) (cfg : Value)
    (base : Nat) (st st1 : State) (a : Nat) (hin : inLodSlots base a)
    (hst : (resolutionPatch cfg base st).andThen (lodPatch cfg base) = Result.done st1)
    (hhost : host.keeps a)
    (hchrome : ∀ st3 b st4, staticPatches f32 cfg base st = Result.done st3 →
      (chromeDiscover host fuel base st3).2 = Poll.found b st4 → ¬ inChromeFields b a) :
    (Main f32 host fuel cfg base st).state.mem a = st1.mem a := by
  obtain ⟨-, -, h3⟩ := lodSlots_apart base a hin
  unfold Main
  rw [andThen_mem _ _ a (fun st3 h3' => chromePatch_mem f32 host fuel cfg base st3 a hhost
    (fun b st4 hd => hchrome st3 b st4 h3' hd))]
  unfold staticPatches
  rw [hst, andThen_done]
  exact drawDistancePatch_mem f32 cfg base st1 a h3

/-! ## Page protections -/

theorem setProt_in (prot : Nat → Nat) (addr size v pg : Nat)
    (h : pageOf addr ≤ pg ∧ pg * 4096 < addr + size) : setProt prot addr size v pg = v := by
  unfold setProt
  exact if_pos h

theorem setProt_out (prot : Nat → Nat) (addr size v pg : Nat)
    (h : ¬ (pageOf addr ≤ pg ∧ pg * 4096 < addr + size)) :
    setProt prot addr size v pg = prot pg := by
  unfold setProt
  exact if_neg h

/-- Restoring a range whose pages all had the protection `p` gives back the map. -/
theorem setProt_restore_uniform (prot : Nat → Nat) (addr size v p : Nat)
    (h : ∀ pg, pageOf addr ≤ pg → pg * 4096 < addr + size → prot pg = p) :
    setProt (setProt prot addr size v) addr size p = prot := by
  funext pg
  by_cases hin : pageOf addr ≤ pg ∧ pg * 4096 < addr + size
  · rw [setProt_in _ _ _ _ _ hin, h pg hin.1 hin.2]
  · rw [setProt_out _ _ _ _ _ hin, setProt_out _ _ _ _ _ hin]

/-- A range within one page covers exactly the page of its first byte. -/
theorem onePage_covers (addr size pg : Nat) (h : onePage addr size) :
    (pageOf addr ≤ pg ∧ pg * 4096 < addr + size) ↔ pg = pageOf addr := by
  unfold onePage at h
  unfold pageOf
  constructor
  · intro hh; omega
  · intro hh; subst hh; omega

/-- Restoring the saved protection of a range within one page gives back the map. -/
theorem setProt_restore (prot : Nat → Nat) (addr size v : Nat) (h : onePage addr size) :
    setProt (setProt prot addr size v) addr size (prot (pageOf addr)) = prot := by
  apply setProt_restore_uniform
  intro pg h1 h2
  rw [(onePage_covers addr size pg h).mp ⟨h1, h2⟩]

/-! ## The chrome fields -/

theorem chromeFound_done (f32 : Double → Nat) (chrome : Value) (base b : Nat) (st : State) (s i : Double)
    (hs : doubleField chrome "Saturation" = some s)
    (hi : doubleField chrome "ReflectionIntensity" = some i) :
    chromeFound f32 chrome base b st =
      Result.done (chromeFound f32 chrome base b st).state := by
  simp only [chromeFound, hs, hi, state_done]

theorem chromeFound_done_mem (f32 : Double → Nat) (chrome : Value) (base b : Nat) (st : State)
    (s i : Double) (hs : doubleField chrome "Saturation" = some s)
    (hi : doubleField chrome "ReflectionIntensity" = some i) :
    (chromeFound f32 chrome base b st).state.mem =
      setBytes (setBytes (setBytes (setBytes st.mem
        (subDW b 0xDC0) 4 (f32 (clamp s (.ofRat (-1)) (.ofRat 1))))
        (subDW b 0xDD0) 4 (f32 (clamp s (.ofRat (-1)) (.ofRat 1))))
        (subDW b 0xD60) 4 (f32 (clamp i (.ofRat (-10)) (.ofRat 10))))
        (subDW b 0xD70) 4 (f32 (clamp i (.ofRat (-10)) (.ofRat 10))) := by
  simp only [chromeFound, hs, hi, ctor_fst, ctor_snd, dtor_eq, store_eq, state_done,
    Bool.false_eq_true, if_false]

theorem chromeFound_done_obs (f32 : Double → Nat) (chrome : Value) (base b : Nat) (st : State)
    (s i : Double) (hs : doubleField chrome "Saturation" = some s)
    (hi : doubleField chrome "ReflectionIntensity" = some i) :
    writesOf (chromeFound f32 chrome base b st).state.trace = writesOf st.trace ++
      [Event.write (subDW b 0xDC0) 4 (f32 (clamp s (.ofRat (-1)) (.ofRat 1))),
       Event.write (subDW b 0xDD0) 4 (f32 (clamp s (.ofRat (-1)) (.ofRat 1))),
       Event.write (subDW b 0xD60) 4 (f32 (clamp i (.ofRat (-10)) (.ofRat 10))),
       Event.write (subDW b 0xD70) 4 (f32 (clamp i (.ofRat (-10)) (.ofRat 10)))] ∧
    sleepsOf (chromeFound f32 chrome base b st).state.trace = sleepsOf st.trace ∧
    ∀ slot, pollsOf slot (chromeFound f32 chrome base b st).state.trace =
      pollsOf slot st.trace := by
  simp only [chromeFound, hs, hi, ctor_fst, ctor_snd, dtor_eq, store_eq, state_done,
    Bool.false_eq_true, if_false]
  refine ⟨?_, ?_, ?_⟩
  · simp [writesOf, Event.isWrite]
  · simp [sleepsOf]
  · intro slot; simp [pollsOf]

theorem chromeFound_done_prot (f32 : Double → Nat) (chrome : Value) (base b : Nat) (st : State)
    (s i : Double) (hs : doubleField chrome "Saturation" = some s)
    (hi : doubleField chrome "ReflectionIntensity" = some i)
    (h1 : onePage (subDW b 0xDC0) 4) (h2 : onePage (subDW b 0xDD0) 4)
    (h3 : onePage (subDW b 0xD60) 4) (h4 : onePage (subDW b 0xD70) 4) :
    (chromeFound f32 chrome base b st).state.prot = st.prot := by
  simp only [chromeFound, hs, hi, ctor_fst, ctor_snd, dtor_eq, store_eq, state_done,
    Bool.false_eq_true, if_false]
  rw [setProt_restore _ _ _ _ h4, setProt_restore _ _ _ _ h3, setProt_restore _ _ _ _ h2,
    setProt_restore _ _ _ _ h1]

/-- A failed decode in the found part leaves memory and the stores of the trace as
they were. -/
theorem chromeFound_failed (f32 : Double → Nat) (chrome : Value) (base b : Nat) (st st2 : State)
    (step : Step) (h : chromeFound f32 chrome base b st = Result.failed step st2) :
    step = Step.chrome ∧ st2.mem = st.mem ∧ writesOf st2.trace = writesOf st.trace ∧
      (doubleField chrome "Saturation" = none ∨
        doubleField chrome "ReflectionIntensity" = none) := by
  cases hs : doubleField chrome "Saturation" with
  | none =>
    simp only [chromeFound, hs, ctor_fst, ctor_snd] at h
    injection h with h1 h2
    subst h1 h2
    simp [writesOf, Event.isWrite]
  | some s =>
    cases hi : doubleField chrome "ReflectionIntensity" with
    | none =>
      simp only [chromeFound, hs, hi, ctor_fst, ctor_snd] at h
      injection h with h1 h2
      subst h1 h2
      simp [writesOf, Event.isWrite]
    | some i =>
      rw [chromeFound_done f32 chrome base b st s i hs hi] at h
      exact Result.noConfusion h

theorem chromeFound_fail (f32 : Double → Nat) (chrome : Value) (base b : Nat) (st : State)
    (h : doubleField chrome "Saturation" = none ∨
      doubleField chrome "ReflectionIntensity" = none) :
    chromeFound f32 chrome base b st =
      Result.failed Step.chrome (chromeFound f32 chrome base b st).state := by
  cases hs : doubleField chrome "Saturation" with
  | none => simp only [chromeFound, hs, state_failed]
  | some s =>
    rcases h with h | h
    · rw [hs] at h; exact Option.noConfusion h
    · simp only [chromeFound, hs, h, state_failed]

/-! ## Discovery along the host's trajectory -/

theorem discover_searching (host : Host) (fuel base : Nat) (st : State)
    (h : ∀ j, j < fuel → keepsPolling host (makeabs base 0x8B4208) st.mem j) :
    ∃ st1, (chromeDiscover host fuel base st).2 = Poll.searching st1 ∧
      st1.mem = memAtCheck host st.mem fuel ∧
      writesOf st1.trace = writesOf st.trace ∧
      sleepsOf st1.trace = sleepsOf st.trace + fuel ∧
      pollsOf (makeabs base 0x8B4208) st1.trace =
        pollsOf (makeabs base 0x8B4208) st.trace + (fuel + 1) := by
  obtain ⟨st1, h1, h2, -, h4, h5, h6⟩ := pollLoop_steps host (makeabs base 0x8B4208) st.mem
    fuel 0 0
    { mem := st.mem,
      prot := setProt st.prot (makeabs base 0x8B4208) 4 PAGE_EXECUTE_READWRITE,
      trace := st.trace ++
        [Event.protect (makeabs base 0x8B4208) 4 PAGE_EXECUTE_READWRITE] ++
        [Event.read (makeabs base 0x8B4208) 4] }
    (Eq.trans rfl rfl) (fun j _ hj => h j (by omega))
  rw [pollLoop_zero] at h1
  rw [Nat.add_zero] at h1
  rw [Nat.zero_add] at h2
  have h0 : readAt host (makeabs base 0x8B4208) st.mem 0 = peek32 st.mem (makeabs base 0x8B4208) :=
    Eq.trans rfl rfl
  rw [h0] at h1
  refine ⟨st1, ?_, h2, ?_, ?_, ?_⟩
  · rw [chromeDiscover_snd]; exact h1
  · rw [h4]; simp [writesOf, Event.isWrite]
  · rw [h5]; simp [sleepsOf]
  · rw [h6]; simp [pollsOf]; omega

theorem discover_found (host : Host) (fuel base N : Nat) (st : State)
    (h : ∀ j, j < N → keepsPolling host (makeabs base 0x8B4208) st.mem j)
    (hN : ¬ keepsPolling host (makeabs base 0x8B4208) st.mem N) (hfuel : N < fuel) :
    ∃ st1, (chromeDiscover host fuel base st).2 =
        Poll.found (readAt host (makeabs base 0x8B4208) st.mem N) st1 ∧
      st1.mem = memAtCheck host st.mem N ∧
      st1.prot = setProt st.prot (makeabs base 0x8B4208) 4 PAGE_EXECUTE_READWRITE ∧
      writesOf st1.trace = writesOf st.trace ∧
      sleepsOf st1.trace = sleepsOf st.trace + N ∧
      pollsOf (makeabs base 0x8B4208) st1.trace =
        pollsOf (makeabs base 0x8B4208) st.trace + (N + 1) := by
  obtain ⟨f, hf⟩ : ∃ f, fuel = N + (f + 1) := ⟨fuel - N - 1, by omega⟩
  subst hf
  obtain ⟨st1, h1, h2, h3, h4, h5, h6⟩ := pollLoop_steps host (makeabs base 0x8B4208) st.mem
    N (f + 1) 0
    { mem := st.mem,
      prot := setProt st.prot (makeabs base 0x8B4208) 4 PAGE_EXECUTE_READWRITE,
      trace := st.trace ++
        [Event.protect (makeabs base 0x8B4208) 4 PAGE_EXECUTE_READWRITE] ++
        [Event.read (makeabs base 0x8B4208) 4] }
    (Eq.trans rfl rfl) (fun j _ hj => h j (by omega))
  rw [Nat.zero_add] at h1 h2
  have hc : (loopCond (readAt host (makeabs base 0x8B4208) st.mem N) st1).1 = false := by
    cases hv : (loopCond (readAt host (makeabs base 0x8B4208) st.mem N) st1).1 with
    | false => rfl
    | true =>
      rw [loopCond_fst, h2] at hv
      exact absurd hv hN
  rw [pollLoop_leave host _ f N _ st1 hc] at h1
  have h0 : readAt host (makeabs base 0x8B4208) st.mem 0 = peek32 st.mem (makeabs base 0x8B4208) :=
    Eq.trans rfl rfl
  rw [h0] at h1
  obtain ⟨l, hl, hr⟩ := loopCond_trace (readAt host (makeabs base 0x8B4208) st.mem N) st1
  simp only at h3 h4 h5 h6
  refine ⟨(loopCond (readAt host (makeabs base 0x8B4208) st.mem N) st1).2, ?_, ?_, ?_, ?_, ?_, ?_⟩
  · rw [chromeDiscover_snd]; exact h1
  · rw [loopCond_mem, h2]
  · rw [loopCond_prot, h3]
  · rw [hl, writesOf_append, writesOf_byteReads l hr, h4]; simp [writesOf, Event.isWrite]
  · rw [hl, sleepsOf_append, sleepsOf_byteReads l hr, h5]; simp [sleepsOf]
  · rw [hl, pollsOf_append, pollsOf_byteReads _ l hr, h6]; simp [pollsOf]; omega

/-- The four chrome fields below a pointer never share a byte. -/
theorem chromeFields_apart (b j : Nat) (hj : j < 4) :
    ¬ (subDW b 0xDD0 ≤ subDW b 0xDC0 + j ∧ subDW b 0xDC0 + j < subDW b 0xDD0 + 4) ∧
    ¬ (subDW b 0xD60 ≤ subDW b 0xDC0 + j ∧ subDW b 0xDC0 + j < subDW b 0xD60 + 4) ∧
    ¬ (subDW b 0xD70 ≤ subDW b 0xDC0 + j ∧ subDW b 0xDC0 + j < subDW b 0xD70 + 4) ∧
    ¬ (subDW b 0xD60 ≤ subDW b 0xDD0 + j ∧ subDW b 0xDD0 + j < subDW b 0xD60 + 4) ∧
    ¬ (subDW b 0xD70 ≤ subDW b 0xDD0 + j ∧ subDW b 0xDD0 + j < subDW b 0xD70 + 4) ∧
    ¬ (subDW b 0xD70 ≤ subDW b 0xD60 + j ∧ subDW b 0xD60 + j < subDW b 0xD70 + 4) := by
  unfold subDW
  omega

/-! ## Completed and failed steps -/

theorem andThen_eq_done (r : Result) (next : State → Result) (st1 : State)
    (h : r.andThen next = Result.done st1) :
    ∃ st0, r = Result.done st0 ∧ next st0 = Result.done st1 := by
  cases r with
  | done st0 => exact ⟨st0, rfl, by rw [andThen_done] at h; exact h⟩
  | failed s st0 => rw [andThen_failed] at h; exact Result.noConfusion h
  | searching st0 => rw [andThen_searching] at h; exact Result.noConfusion h

theorem resolutionPatch_fail (cfg : Value) (base : Nat) (st : State)
    (hu : uintField cfg "ReflectionResolution" = none) :
    resolutionPatch cfg base st =
      Result.failed Step.resolution (resolutionPatch cfg base st).state := by
  simp only [resolutionPatch, hu, state_failed]

theorem resolutionPatch_fail_mem (cfg : Value) (base : Nat) (st : State)
    (hu : uintField cfg "ReflectionResolution" = none) :
    (resolutionPatch cfg base st).state.mem =
      setBytes st.mem (makeabs base 0x22CA04) 2 0x9090 := by
  simp only [resolutionPatch, hu, ctor2_fst, ctor2_snd, store_eq, state_failed]

theorem resolutionPatch_fail_writes (cfg : Value) (base : Nat) (st : State)
    (hu : uintField cfg "ReflectionResolution" = none) :
    writesOf (resolutionPatch cfg base st).state.trace =
      writesOf st.trace ++ [Event.write (makeabs base 0x22CA04) 2 0x9090] := by
  simp only [resolutionPatch, hu, ctor2_fst, ctor2_snd, store_eq, state_failed]
  simp [writesOf, Event.isWrite]

theorem resolutionPatch_done_prot (cfg : Value) (base r : Nat) (st : State)
    (hu : uintField cfg "ReflectionResolution" = some r)
    (h1 : onePage (makeabs base 0x22CA04) 2) (h2 : onePage (makeabs base 0x22CA07) 4) :
    (resolutionPatch cfg base st).state.prot = st.prot := by
  simp only [resolutionPatch, hu, ctor2_fst, ctor2_snd, dtor_eq, store_eq, state_done]
  rw [setProt_restore _ _ _ _ h2, setProt_restore _ _ _ _ h1]

theorem resolutionPatch_eq_done (cfg : Value) (base : Nat) (st st1 : State)
    (h : resolutionPatch cfg base st = Result.done st1) :
    ∃ r, uintField cfg "ReflectionResolution" = some r := by
  cases hu : uintField cfg "ReflectionResolution" with
  | none => rw [resolutionPatch_fail cfg base st hu] at h; exact Result.noConfusion h
  | some r => exact ⟨r, rfl⟩

theorem lodPatch_fail (cfg : Value) (base : Nat) (st : State)
    (h : boolField cfg "BetterReflectionLODs" = none) :
    lodPatch cfg base st = Result.failed Step.lod st := by
  simp only [lodPatch, h]

theorem lodPatch_failed (cfg : Value) (base : Nat) (st st2 : State) (s : Step)
    (h : lodPatch cfg base st = Result.failed s st2) :
    s = Step.lod ∧ st2 = st ∧ boolField cfg "BetterReflectionLODs" = none := by
  cases hb : boolField cfg "BetterReflectionLODs" with
  | none =>
    rw [lodPatch_fail cfg base st hb] at h
    injection h with h1 h2
    exact ⟨h1.symm, h2.symm, rfl⟩
  | some v =>
    cases v with
    | false => rw [lodPatch_off cfg base st hb] at h; exact Result.noConfusion h
    | true => rw [lodPatch_on cfg base st hb] at h; exact Result.noConfusion h

theorem lodPatch_done_prot (cfg : Value) (base : Nat) (st st1 : State)
    (h : lodPatch cfg base st = Result.done st1)
    (hp : boolField cfg "BetterReflectionLODs" = some true →
      onePage (makeabs base 0x89E48C) 1 ∧ onePage (makeabs base 0x33D8BF) 1 ∧
        onePage (makeabs base 0x33DEBD) 4) :
    st1.prot = st.prot := by
  cases hb : boolField cfg "BetterReflectionLODs" with
  | none => rw [lodPatch_fail cfg base st hb] at h; exact Result.noConfusion h
  | some v =>
    cases v with
    | false =>
      rw [lodPatch_off cfg base st hb] at h
      injection h with h1
      rw [h1]
    | true =>
      obtain ⟨p1, p2, p3⟩ := hp hb
      simp only [lodPatch, hb, ctor2_fst, ctor2_snd, dtor_eq, store_eq] at h
      injection h with h1
      rw [← h1]
      simp only
      rw [setProt_restore _ _ _ _ p3, setProt_restore _ _ _ _ p2, setProt_restore _ _ _ _ p1]

theorem drawDistancePatch_fail (f32 : Double → Nat) (cfg : Value) (base : Nat) (st : State)
    (h : boolField cfg "BetterReflectionDrawDistance" = none) :
    drawDistancePatch f32 cfg base st = Result.failed Step.drawDistance st := by
  simp only [drawDistancePatch, h]

theorem drawDistancePatch_failed (f32 : Double → Nat) (cfg : Value) (base : Nat) (st st2 : State)
    (s : Step) (h : drawDistancePatch f32 cfg base st = Result.failed s st2) :
    s = Step.drawDistance ∧ st2 = st ∧ boolField cfg "BetterReflectionDrawDistance" = none := by
  cases hb : boolField cfg "BetterReflectionDrawDistance" with
  | none =>
    rw [drawDistancePatch_fail f32 cfg base st hb] at h
    injection h with h1 h2
    exact ⟨h1.symm, h2.symm, rfl⟩
  | some v =>
    cases v with
    | false => simp only [drawDistancePatch, hb] at h; exact Result.noConfusion h
    | true => simp only [drawDistancePatch, hb] at h; exact Result.noConfusion h

theorem drawDistancePatch_done_prot (f32 : Double → Nat) (cfg : Value) (base : Nat) (st st1 : State)
    (h : drawDistancePatch f32 cfg base st = Result.done st1)
    (hp : boolField cfg "BetterReflectionDrawDistance" = some true →
      onePage (makeabs base 0x882D44) 4) :
    st1.prot = st.prot := by
  cases hb : boolField cfg "BetterReflectionDrawDistance" with
  | none => rw [drawDistancePatch_fail f32 cfg base st hb] at h; exact Result.noConfusion h
  | some v =>
    cases v with
    | false =>
      simp only [drawDistancePatch, hb] at h
      injection h with h1
      rw [h1]
    | true =>
      simp only [drawDistancePatch, hb, ctor2_fst, ctor2_snd, dtor_eq, store_eq] at h
      injection h with h1
      rw [← h1]
      simp only
      rw [setProt_restore _ _ _ _ (hp hb)]

theorem chromePatch_fail_member (f32 : Double → Nat) (host : Host) (fuel : Nat) (cfg : Value)
    (base : Nat) (st : State) (hm : cfg.member "BetterChrome" = none) :
    chromePatch f32 host fuel cfg base st = Result.failed Step.chrome st := by
  simp only [chromePatch, hm]

theorem chromePatch_fail_enabled (f32 : Double → Nat) (host : Host) (fuel : Nat)
    (cfg chrome : Value) (base : Nat) (st : State)
    (hm : cfg.member "BetterChrome" = some chrome) (hb : boolField chrome "Enabled" = none) :
    chromePatch f32 host fuel cfg base st = Result.failed Step.chrome st := by
  simp only [chromePatch, hm, hb]

theorem chromePatch_off (f32 : Double → Nat) (host : Host) (fuel : Nat)
    (cfg chrome : Value) (base : Nat) (st : State)
    (hm : cfg.member "BetterChrome" = some chrome)
    (hb : boolField chrome "Enabled" = some false) :
    chromePatch f32 host fuel cfg base st = Result.done st := by
  simp only [chromePatch, hm, hb]

/-- The discovery part stores nothing and keeps the protections its scope set. -/
theorem chromeDiscover_inv (host : Host) (fuel base : Nat) (st : State) :
    (chromeDiscover host fuel base st).2.state.prot =
      setProt st.prot (makeabs base 0x8B4208) 4 PAGE_EXECUTE_READWRITE ∧
    writesOf (chromeDiscover host fuel base st).2.state.trace = writesOf st.trace ∧
    ∀ a, a ≠ makeabs base 0x8B4208 →
      pollsOf a (chromeDiscover host fuel base st).2.state.trace = pollsOf a st.trace := by
  rw [chromeDiscover_snd]
  obtain ⟨h1, h2, h3, -⟩ := pollLoop_inv host (makeabs base 0x8B4208) fuel 0
    (peek32 st.mem (makeabs base 0x8B4208))
    { mem := st.mem,
      prot := setProt st.prot (makeabs base 0x8B4208) 4 PAGE_EXECUTE_READWRITE,
      trace := st.trace ++
        [Event.protect (makeabs base 0x8B4208) 4 PAGE_EXECUTE_READWRITE] ++
        [Event.read (makeabs base 0x8B4208) 4] }
  simp only at h1 h2 h3
  refine ⟨h1, ?_, ?_⟩
  · rw [h2]; simp [writesOf, Event.isWrite]
  · intro a ha
    rw [h3 a ha]
    have hne : Event.read (makeabs base 0x8B4208) 4 ≠ Event.read a 4 := by
      intro he
      injection he with h1 _
      exact ha h1.symm
    have hz : List.count (Event.read a 4) [Event.read (makeabs base 0x8B4208) 4] = 0 := by
      rw [List.count_eq_zero]
      intro hmem
      rw [List.mem_singleton] at hmem
      exact hne hmem.symm
    have hz2 : List.count (Event.read a 4)
        [Event.protect (makeabs base 0x8B4208) 4 PAGE_EXECUTE_READWRITE] = 0 := by
      rw [List.count_eq_zero]
      intro hmem
      rw [List.mem_singleton] at hmem
      exact Event.noConfusion hmem
    simp only [pollsOf, List.count_append, hz, hz2, Nat.add_zero]

/-- A failure of the chrome step comes before any of its stores. -/
theorem chromePatch_failed (f32 : Double → Nat) (host : Host) (fuel : Nat) (cfg : Value)
    (base : Nat) (st st2 : State) (s : Step)
    (h : chromePatch f32 host fuel cfg base st = Result.failed s st2) :
    s = Step.chrome ∧ writesOf st2.trace = writesOf st.trace := by
  cases hm : cfg.member "BetterChrome" with
  | none =>
    rw [chromePatch_fail_member f32 host fuel cfg base st hm] at h
    injection h with h1 h2
    rw [← h2]; exact ⟨h1.symm, rfl⟩
  | some chrome =>
    cases hb : boolField chrome "Enabled" with
    | none =>
      rw [chromePatch_fail_enabled f32 host fuel cfg chrome base st hm hb] at h
      injection h with h1 h2
      rw [← h2]; exact ⟨h1.symm, rfl⟩
    | some v =>
      cases v with
      | false =>
        rw [chromePatch_off f32 host fuel cfg chrome base st hm hb] at h
        exact Result.noConfusion h
      | true =>
        have hinv := (chromeDiscover_inv host fuel base st).2.1
        cases hd : (chromeDiscover host fuel base st).2 with
        | searching st1 =>
          rw [chromePatch_searching f32 host fuel cfg chrome base st st1 hm hb hd] at h
          exact Result.noConfusion h
        | found b st1 =>
          rw [hd] at hinv
          simp only [Poll.state] at hinv
          cases hcf : chromeFound f32 chrome base b st1 with
          | done st3 =>
            rw [chromePatch_found_done f32 host fuel cfg chrome base b st st1 st3 hm hb hd
              hcf] at h
            exact Result.noConfusion h
          | failed s3 st3 =>
            rw [chromePatch_found_failed f32 host fuel cfg chrome base b st st1 st3 s3 hm hb hd
              hcf] at h
            injection h with h1 h2
            obtain ⟨f1, -, f3, -⟩ := chromeFound_failed f32 chrome base b st1 st3 s3 hcf
            rw [← h1, ← h2, f3, hinv]
            exact ⟨f1, rfl⟩
          | searching st3 => exact absurd hcf (chromeFound_not_searching _ _ _ _ _ _)

theorem chromePatch_done_prot (f32 : Double → Nat) (host : Host) (fuel : Nat) (cfg : Value)
    (base : Nat) (st st1 : State)
    (h : chromePatch f32 host fuel cfg base st = Result.done st1)
    (hp : ∀ b st0, (chromeDiscover host fuel base st).2 = Poll.found b st0 →
      onePage (makeabs base 0x8B4208) 4 ∧ onePage (subDW b 0xDC0) 4 ∧
        onePage (subDW b 0xDD0) 4 ∧ onePage (subDW b 0xD60) 4 ∧ onePage (subDW b 0xD70) 4) :
    st1.prot = st.prot := by
  cases hm : cfg.member "BetterChrome" with
  | none =>
    rw [chromePatch_fail_member f32 host fuel cfg base st hm] at h
    exact Result.noConfusion h
  | some chrome =>
    cases hb : boolField chrome "Enabled" with
    | none =>
      rw [chromePatch_fail_enabled f32 host fuel cfg chrome base st hm hb] at h
      exact Result.noConfusion h
    | some v =>
      cases v with
      | false =>
        rw [chromePatch_off f32 host fuel cfg chrome base st hm hb] at h
        injection h with h1
        rw [h1]
      | true =>
        have hinv := (chromeDiscover_inv host fuel base st).1
        cases hd : (chromeDiscover host fuel base st).2 with
        | searching st0 =>
          rw [chromePatch_searching f32 host fuel cfg chrome base st st0 hm hb hd] at h
          exact Result.noConfusion h
        | found b st0 =>
          rw [hd] at hinv
          simp only [Poll.state] at hinv
          obtain ⟨p0, p1, p2, p3, p4⟩ := hp b st0 hd
          cases hs : doubleField chrome "Saturation" with
          | none =>
            rw [chromePatch_found_failed f32 host fuel cfg chrome base b st st0 _ _ hm hb hd
              (chromeFound_fail f32 chrome base b st0 (Or.inl hs))] at h
            exact Result.noConfusion h
          | some s =>
            cases hi : doubleField chrome "ReflectionIntensity" with
            | none =>
              rw [chromePatch_found_failed f32 host fuel cfg chrome base b st st0 _ _ hm hb hd
                (chromeFound_fail f32 chrome base b st0 (Or.inr hi))] at h
              exact Result.noConfusion h
            | some i =>
              rw [chromePatch_found_done f32 host fuel cfg chrome base b st st0 _ hm hb hd
                (chromeFound_done f32 chrome base b st0 s i hs hi)] at h
              injection h with h1
              rw [← h1]
              simp only
              rw [chromeFound_done_prot f32 chrome base b st0 s i hs hi p1 p2 p3 p4, hinv,
                setProt_restore _ _ _ _ p0]

/-! ## The static steps as a whole -/

theorem lodPatch_done (cfg : Value) (base : Nat) (st : State) (v : Bool)
    (h : boolField cfg "BetterReflectionLODs" = some v) :
    lodPatch cfg base st = Result.done (lodPatch cfg base st).state := by
  cases v with
  | false => rw [lodPatch_off cfg base st h, state_done]
  | true => exact lodPatch_on cfg base st h

theorem drawDistancePatch_done (f32 : Double → Nat) (cfg : Value) (base : Nat) (st : State)
    (v : Bool) (h : boolField cfg "BetterReflectionDrawDistance" = some v) :
    drawDistancePatch f32 cfg base st =
      Result.done (drawDistancePatch f32 cfg base st).state := by
  cases v with
  | false => simp only [drawDistancePatch, h, state_done]
  | true => simp only [drawDistancePatch, h, state_done]

theorem staticPatches_done (f32 : Double → Nat) (cfg : Value) (base : Nat) (st : State)
    (r : Nat) (v1 v2 : Bool) (hu : uintField cfg "ReflectionResolution" = some r)
    (h1 : boolField cfg "BetterReflectionLODs" = some v1)
    (h2 : boolField cfg "BetterReflectionDrawDistance" = some v2) :
    staticPatches f32 cfg base st = Result.done (staticPatches f32 cfg base st).state := by
  unfold staticPatches
  rw [resolutionPatch_done cfg base r st hu, andThen_done,
    lodPatch_done cfg base _ v1 h1, andThen_done,
    drawDistancePatch_done f32 cfg base _ v2 h2, state_done]

/-- The static steps leave every byte outside their seven ranges alone. -/
theorem staticPatches_mem (f32 : Double → Nat) (cfg : Value) (base : Nat) (st : State) (a : Nat)
    (h1 : ¬ inBytes (makeabs base 0x22CA04) 2 a) (h2 : ¬ inBytes (makeabs base 0x22CA07) 4 a)
    (h3 : ¬ inLodSlots base a) (h4 : ¬ inBytes (makeabs base 0x882D44) 4 a) :
    (staticPatches f32 cfg base st).state.mem a = st.mem a := by
  unfold staticPatches
  rw [andThen_mem _ _ a (fun st2 _ => drawDistancePatch_mem f32 cfg base st2 a h4),
    andThen_mem _ _ a (fun st1 _ => lodPatch_mem cfg base st1 a h3)]
  exact resolutionPatch_mem cfg base st a h1 h2

/-- The static steps leave the bytes `a + 0 .. a + n` alone when `a` is `off` bytes from
the load base and `off .. off + n` avoids their ranges. -/
theorem staticPatches_mem_slot (f32 : Double → Nat) (cfg : Value) (base : Nat) (st : State)
    (i : Nat) (hi : i < 4) :
    (staticPatches f32 cfg base st).state.mem (makeabs base 0x8B4208 + i) =
      st.mem (makeabs base 0x8B4208 + i) := by
  apply staticPatches_mem
  · unfold inBytes makeabs; omega
  · unfold inBytes makeabs; omega
  · unfold inLodSlots inBytes makeabs; omega
  · unfold inBytes makeabs; omega

theorem staticPatches_peek_slot (f32 : Double → Nat) (cfg : Value) (base : Nat) (st : State) :
    peek32 (staticPatches f32 cfg base st).state.mem (makeabs base 0x8B4208) =
      peek32 st.mem (makeabs base 0x8B4208) := by
  have h0 := staticPatches_mem_slot f32 cfg base st 0 (by omega)
  have h1 := staticPatches_mem_slot f32 cfg base st 1 (by omega)
  have h2 := staticPatches_mem_slot f32 cfg base st 2 (by omega)
  have h3 := staticPatches_mem_slot f32 cfg base st 3 (by omega)
  rw [Nat.add_zero] at h0
  unfold peek32
  rw [h0, h1, h2, h3]

/-! ## An idle host -/

theorem idleHost_memAtCheck (m : Nat → Nat) (k : Nat) : memAtCheck idleHost m k = m := by
  induction k with
  | zero => exact Eq.trans rfl rfl
  | succ n ih =>
    have e : memAtCheck idleHost m (n + 1) =
        idleHost.duringSleep (n + 1) (idleHost.beforeRead (n + 1) (memAtCheck idleHost m n)) :=
      Eq.trans rfl rfl
    rw [e, ih]
    exact Eq.trans rfl rfl

theorem idleHost_readAt (slot : Nat) (m : Nat → Nat) (k : Nat) :
    readAt idleHost slot m k = peek32 m slot := by
  cases k with
  | zero => exact Eq.trans rfl rfl
  | succ n =>
    have e : readAt idleHost slot m (n + 1) =
        peek32 (idleHost.beforeRead (n + 1) (memAtCheck idleHost m n)) slot := Eq.trans rfl rfl
    rw [e, idleHost_memAtCheck]
    exact Eq.trans rfl rfl

/-- With an idle host and a null pointer in the slot every poll keeps the loop going. -/
theorem idleHost_keepsPolling (slot : Nat) (m : Nat → Nat) (h : peek32 m slot = 0) (k : Nat) :
    keepsPolling idleHost slot m k := by
  unfold keepsPolling
  rw [idleHost_readAt, h]
  exact Or.inl rfl

/-- The loop never removes a read from the trace. -/
theorem pollLoop_polls_le (host : Host) (slot a : Nat) : ∀ (fuel k b : Nat) (st : State),
    pollsOf a st.trace ≤ pollsOf a (pollLoop host slot fuel k b st).state.trace := by
  intro fuel
  induction fuel with
  | zero => intro k b st; rw [pollLoop_zero]; exact le_refl _
  | succ n ih =>
    intro k b st
    obtain ⟨l, hl, -⟩ := loopCond_trace b st
    by_cases hc : (loopCond b st).1 = true
    · rw [pollLoop_continue host slot n k b st hc]
      refine le_trans ?_ (ih (k + 1) _ _)
      simp only [hl, pollsOf_append]
      omega
    · rw [pollLoop_leave host slot n k b st (by simpa using hc)]
      simp only [Poll.state, hl, pollsOf_append]
      omega

/-! ## Sample runs -/

theorem bytesAt_congr (m1 m2 : Nat → Nat) (lit : List Nat) : ∀ p : Nat,
    (∀ j, j < lit.length → m1 (p + j) = m2 (p + j)) → bytesAt m2 p lit → bytesAt m1 p lit := by
  induction lit with
  | nil => intro p _ _; exact trivial
  | cons c cs ih =>
    intro p h hb
    have h0 := h 0 (by simp)
    rw [Nat.add_zero] at h0
    refine ⟨by rw [h0]; exact hb.1, ih (p + 1) (fun j hj => ?_) hb.2⟩
    have := h (j + 1) (by simp; omega)
    rw [Nat.add_assoc, Nat.add_comm 1 j]
    exact this

theorem idleHost_keeps (a : Nat) : idleHost.keeps a := fun _ _ => ⟨rfl, rfl⟩

/-- With the chrome block in place from the start, the loop of a module loaded at
0x400000 finds the pointer 0x20000 at its first poll, after any static steps. -/
theorem chromeState_found (f32 : Double → Nat) (cfg : Value) (fuel : Nat) (hfuel : 0 < fuel) :
    ∃ st0, (chromeDiscover idleHost fuel 0x400000
      (staticPatches f32 cfg 0x400000 (chromeState 0xCB4208 0x20000)).state).2 =
        Poll.found 0x20000 st0 := by
  have e1 : makeabs 0x400000 0x8B4208 = 0xCB4208 := by decide
  have hpeek : peek32 (staticPatches f32 cfg 0x400000 (chromeState 0xCB4208 0x20000)).state.mem
      (makeabs 0x400000 0x8B4208) = 0x20000 := by
    rw [staticPatches_peek_slot, e1]
    simp [peek32, chromeState, chromeMemory, setBytes, byteAt, subDW]
  have hsig : bytesAt (staticPatches f32 cfg 0x400000 (chromeState 0xCB4208 0x20000)).state.mem
      (subDW 0x20000 0xE24) chromeLit := by
    have e2 : subDW 0x20000 0xE24 = 0x1F1DC := by decide
    rw [e2]
    apply bytesAt_congr _ (chromeMemory 0xCB4208 0x20000)
    · intro j hj
      have hj7 : j < 7 := hj
      have hm : (chromeState 0xCB4208 0x20000).mem = chromeMemory 0xCB4208 0x20000 := rfl
      rw [← hm]
      apply staticPatches_mem
      · unfold inBytes makeabs; omega
      · unfold inBytes makeabs; omega
      · unfold inLodSlots inBytes makeabs; omega
      · unfold inBytes makeabs; omega
    · simp [bytesAt, chromeLit, chromeMemory, setBytes, byteAt, subDW]
  have hN : ¬ keepsPolling idleHost (makeabs 0x400000 0x8B4208)
      (staticPatches f32 cfg 0x400000 (chromeState 0xCB4208 0x20000)).state.mem 0 := by
    unfold keepsPolling
    rw [idleHost_readAt, idleHost_memAtCheck, hpeek]
    intro h
    rcases h with h | h
    · exact absurd h (by decide)
    · exact h hsig
  obtain ⟨st0, h0, -⟩ := discover_found idleHost fuel 0x400000 0 _
    (fun j hj => absurd hj (by omega)) hN hfuel
  rw [idleHost_readAt, hpeek] at h0
  exact ⟨st0, h0⟩

/-- The chrome fields below 0x20000 are far from the LOD slots of a module loaded at
0x400000. -/
theorem sample_fields_apart (a : Nat) (h : inLodSlots 0x400000 a) :
    ¬ inChromeFields 0x20000 a := by
  unfold inLodSlots inBytes makeabs at h
  unfold inChromeFields inBytes subDW
  omega

theorem lateHost_reads (k : Nat) (hk : k < 3) :
    readAt (lateHost 0xCB4208 0x20000) 0xCB4208 blankState.mem k = 0 := by
  interval_cases k <;> simp [readAt, memAtCheck, lateHost, blankState, peek32]

theorem lateHost_read3 :
    readAt (lateHost 0xCB4208 0x20000) 0xCB4208 blankState.mem 3 = 0x20000 := by
  simp [readAt, memAtCheck, lateHost, peek32, chromeMemory, setBytes, byteAt, subDW]

theorem lateHost_mem3 :
    memAtCheck (lateHost 0xCB4208 0x20000) blankState.mem 3 = chromeMemory 0xCB4208 0x20000 := by
  simp [memAtCheck, lateHost]

theorem Main_after_static (f32 : Double → Nat) (host : Host) (fuel : Nat) (cfg : Value)
    (base : Nat) (st st3 : State) (h3 : staticPatches f32 cfg base st = Result.done st3) :
    Main f32 host fuel cfg base st = chromePatch f32 host fuel cfg base st3 := by
  unfold Main
  rw [h3, andThen_done]

/-- With the chrome block in place a run of the default configuration completes. -/
theorem chromeState_run_done :
    ∃ st1, Main sampleF32 idleHost 1 defaultConfig 0x400000 (chromeState 0xCB4208 0x20000) =
      Result.done st1 := by
  have h3 := staticPatches_done sampleF32 defaultConfig 0x400000 (chromeState 0xCB4208 0x20000)
    1024 true true (by decide) (by decide) (by decide)
  obtain ⟨st0, h0⟩ := chromeState_found sampleF32 defaultConfig 1 (by decide)
  have hc := chromePatch_found_done sampleF32 idleHost 1 defaultConfig defaultChrome 0x400000
    0x20000 _ st0 _ rfl rfl h0 (chromeFound_done sampleF32 defaultChrome 0x400000 0x20000 st0
      (.ofRat (3 / 40)) (.ofRat (27 / 4)) rfl rfl)
  exact ⟨_, (Main_after_static sampleF32 idleHost 1 defaultConfig 0x400000 _ _ h3).trans hc⟩

/-! # The claims -/

/-- C1: for every configuration whose ReflectionResolution is an unsigned 32-bit integer
r and every prior process state, the resolution patch of Main completes, and after it
the 2 bytes at load_base+0x22CA04 are 0x90, 0x90 and the 4 bytes at load_base+0x22CA07
are the little-endian encoding of r, whatever those bytes held before; no other field of
the configuration is consulted, and every run of Main continues from that state. -/
theorem resolution_patch_bytes (cfg : Value) (base r : Nat) (st : State)
    (hm : cfg.member "ReflectionResolution" = some (Value.int (r : Int)))
    (hr : r < 4294967296) :
    ∃ st1, resolutionPatch cfg base st = Result.done st1 ∧
      st1.mem (makeabs base 0x22CA04) = 0x90 ∧
      st1.mem (makeabs base 0x22CA04 + 1) = 0x90 ∧
      (∀ i, i < 4 → st1.mem (makeabs base 0x22CA07 + i) = byteAt r i) ∧
      peek32 st1.mem (makeabs base 0x22CA07) = r ∧
      (∀ (f32 : Double → Nat) (host : Host) (fuel : Nat), Main f32 host fuel cfg base st =
        ((lodPatch cfg base st1).andThen (drawDistancePatch f32 cfg base)).andThen
          (chromePatch f32 host fuel cfg base)) := by
  have hu := uintField_int cfg _ r hm hr
  have hd := resolutionPatch_done cfg base r st hu
  have hmem := resolutionPatch_done_mem cfg base r st hu
  have hbytes : ∀ i, i < 4 →
      (resolutionPatch cfg base st).state.mem (makeabs base 0x22CA07 + i) = byteAt r i := by
    intro i hi
    have hb : makeabs base 0x22CA07 ≤ makeabs base 0x22CA07 + i ∧
        makeabs base 0x22CA07 + i < makeabs base 0x22CA07 + 4 := by omega
    rw [hmem, setBytes_in _ _ _ _ _ hb, Nat.add_sub_cancel_left]
  refine ⟨_, hd, ?_, ?_, hbytes, ?_, ?_⟩
  · have ha : ¬ (makeabs base 0x22CA07 ≤ makeabs base 0x22CA04 ∧
        makeabs base 0x22CA04 < makeabs base 0x22CA07 + 4) := by unfold makeabs; omega
    have hb : makeabs base 0x22CA04 ≤ makeabs base 0x22CA04 ∧
        makeabs base 0x22CA04 < makeabs base 0x22CA04 + 2 := by omega
    rw [hmem, setBytes_out _ _ _ _ _ ha, setBytes_in _ _ _ _ _ hb, Nat.sub_self]
    norm_num [byteAt]
  · have ha : ¬ (makeabs base 0x22CA07 ≤ makeabs base 0x22CA04 + 1 ∧
        makeabs base 0x22CA04 + 1 < makeabs base 0x22CA07 + 4) := by unfold makeabs; omega
    have hb : makeabs base 0x22CA04 ≤ makeabs base 0x22CA04 + 1 ∧
        makeabs base 0x22CA04 + 1 < makeabs base 0x22CA04 + 2 := by omega
    rw [hmem, setBytes_out _ _ _ _ _ ha, setBytes_in _ _ _ _ _ hb, Nat.add_sub_cancel_left]
    norm_num [byteAt]
  · have h0 := hbytes 0 (by omega)
    have h1 := hbytes 1 (by omega)
    have h2 := hbytes 2 (by omega)
    have h3 := hbytes 3 (by omega)
    rw [Nat.add_zero] at h0
    unfold peek32
    rw [h0, h1, h2, h3]
    unfold byteAt
    omega
  · intro f32 host fuel
    unfold Main staticPatches
    conv_lhs => rw [hd, andThen_done]

/-- C1 at the default configuration, load base 0x400000 and blank memory. -/
theorem resolution_patch_bytes_witness :
    (defaultConfig.member "ReflectionResolution" = some (Value.int ((1024 : Nat) : Int)) ∧
      1024 < 4294967296) ∧
    ∃ st1, resolutionPatch defaultConfig 0x400000 blankState = Result.done st1 ∧
      st1.mem (makeabs 0x400000 0x22CA04) = 0x90 ∧
      st1.mem (makeabs 0x400000 0x22CA04 + 1) = 0x90 ∧
      peek32 st1.mem (makeabs 0x400000 0x22CA07) = 1024 := by
  refine ⟨⟨rfl, by decide⟩, ?_⟩
  obtain ⟨st1, h, h0, h1, -, hp, -⟩ :=
    resolution_patch_bytes defaultConfig 0x400000 1024 blankState rfl (by decide)
  exact ⟨st1, h, h0, h1, hp⟩

/-- C2: with BetterReflectionLODs = false, however far a run of Main gets, the three
LOD-patch slots (1 byte at load_base+0x89E48C, 1 byte at load_base+0x33D8BF, 4 bytes at
load_base+0x33DEBD) hold exactly their prior contents, provided the host leaves them
alone and the four chrome fields of a discovered pointer do not overlap them (the bytes
of the resolution and draw-distance steps never do).  With the flag true the LOD step,
from any state, completes and leaves 0x00, 0x10 and the 32-bit constant 0x00008002 in
them, and under the same provisos they hold these values however far a run of Main that
got past the resolution step gets. -/
theorem lod_slots_frame (f32 : Double → Nat) (host : Host) (fuel : Nat) (cfg : Value)
    (base : Nat) (st : State)
    (hhost : ∀ a, inLodSlots base a → host.keeps a)
    (hchrome : ∀ st3 b st4, staticPatches f32 cfg base st = Result.done st3 →
      (chromeDiscover host fuel base st3).2 = Poll.found b st4 →
      ∀ a, inLodSlots base a → ¬ inChromeFields b a) :
    (cfg.member "BetterReflectionLODs" = some (Value.bool false) →
      ∀ a, inLodSlots base a → (Main f32 host fuel cfg base st).state.mem a = st.mem a) ∧
    (cfg.member "BetterReflectionLODs" = some (Value.bool true) →
      (∀ st0, ∃ st1, lodPatch cfg base st0 = Result.done st1 ∧
        st1.mem (makeabs base 0x89E48C) = 0x00 ∧ st1.mem (makeabs base 0x33D8BF) = 0x10 ∧
        peek32 st1.mem (makeabs base 0x33DEBD) = 0x00008002) ∧
      ((∃ r, uintField cfg "ReflectionResolution" = some r) →
        (Main f32 host fuel cfg base st).state.mem (makeabs base 0x89E48C) = 0x00 ∧
        (Main f32 host fuel cfg base st).state.mem (makeabs base 0x33D8BF) = 0x10 ∧
        peek32 (Main f32 host fuel cfg base st).state.mem (makeabs base 0x33DEBD) =
          0x00008002)) := by
  constructor
  · intro hoff a hin
    obtain ⟨h1, h2, h3⟩ := lodSlots_apart base a hin
    have hb := boolField_bool cfg _ false hoff
    unfold Main
    rw [andThen_mem _ _ a (fun st3 h3' => chromePatch_mem f32 host fuel cfg base st3 a
      (hhost a hin) (fun b st4 hd => hchrome st3 b st4 h3' hd a hin))]
    unfold staticPatches
    rw [andThen_mem _ _ a (fun st2 _ => drawDistancePatch_mem f32 cfg base st2 a h3)]
    rw [andThen_mem _ _ a (fun st1 _ => by rw [lodPatch_off cfg base st1 hb, state_done])]
    exact resolutionPatch_mem cfg base st a h1 h2
  · intro hon
    have hb := boolField_bool cfg _ true hon
    constructor
    · intro st0
      obtain ⟨s1, s2, s3⟩ := lodPatch_on_slots cfg base st0 hb
      exact ⟨_, lodPatch_on cfg base st0 hb, s1, s2,
        peek32_of_bytes _ _ _ (by norm_num) s3⟩
    · intro hres
      obtain ⟨r, hu⟩ := hres
      have hst : (resolutionPatch cfg base st).andThen (lodPatch cfg base) =
          Result.done (lodPatch cfg base (resolutionPatch cfg base st).state).state := by
        conv_lhs => rw [resolutionPatch_done cfg base r st hu, andThen_done]
        exact lodPatch_on cfg base _ hb
      have key : ∀ a, inLodSlots base a → (Main f32 host fuel cfg base st).state.mem a =
          (lodPatch cfg base (resolutionPatch cfg base st).state).state.mem a := by
        intro a hin
        exact Main_mem_after_lod f32 host fuel cfg base st _ a hin hst (hhost a hin)
          (fun st3 b st4 h3 hd => hchrome st3 b st4 h3 hd a hin)
      obtain ⟨s1, s2, s3⟩ := lodPatch_on_slots cfg base (resolutionPatch cfg base st).state hb
      refine ⟨?_, ?_, peek32_of_bytes _ _ _ (by norm_num) (fun i hi => ?_)⟩
      · rw [key _ (by unfold inLodSlots inBytes; omega)]; exact s1
      · rw [key _ (by unfold inLodSlots inBytes; omega)]; exact s2
      · rw [key _ (by unfold inLodSlots inBytes; omega)]; exact s3 i hi

/-- C2 at load base 0x400000 with the chrome block in place and an idle host: the quiet
configuration leaves the slot at 0xC9E48C as it was, and after a run of the default one,
which discovers the pointer 0x20000, the slot at 0x73D8BF holds 0x10. -/
theorem lod_slots_frame_witness :
    (Main sampleF32 idleHost 5 quietConfig 0x400000 (chromeState 0xCB4208 0x20000)).state.mem
        (makeabs 0x400000 0x89E48C) =
      (chromeState 0xCB4208 0x20000).mem (makeabs 0x400000 0x89E48C) ∧
    (Main sampleF32 idleHost 5 defaultConfig 0x400000 (chromeState 0xCB4208 0x20000)).state.mem
      (makeabs 0x400000 0x33D8BF) = 0x10 := by
  have hfound : ∀ (cfg : Value) (st3 : State) (b : Nat) (st4 : State),
      staticPatches sampleF32 cfg 0x400000 (chromeState 0xCB4208 0x20000) = Result.done st3 →
      (chromeDiscover idleHost 5 0x400000 st3).2 = Poll.found b st4 →
      ∀ a, inLodSlots 0x400000 a → ¬ inChromeFields b a := by
    intro cfg st3 b st4 h3 hd
    obtain ⟨st0, h0⟩ := chromeState_found sampleF32 cfg 5 (by decide)
    have hst : st3 = (staticPatches sampleF32 cfg 0x400000
        (chromeState 0xCB4208 0x20000)).state := by
      rw [h3, state_done]
    rw [hst, h0] at hd
    injection hd with hb _
    rw [← hb]
    exact sample_fields_apart
  constructor
  · exact (lod_slots_frame sampleF32 idleHost 5 quietConfig 0x400000
      (chromeState 0xCB4208 0x20000) (fun a _ => idleHost_keeps a) (hfound quietConfig)).1 rfl _
      (Or.inl ⟨le_refl _, by omega⟩)
  · exact (((lod_slots_frame sampleF32 idleHost 5 defaultConfig 0x400000
      (chromeState 0xCB4208 0x20000) (fun a _ => idleHost_keeps a) (hfound defaultConfig)).2
      rfl).2 ⟨1024, by decide⟩).2.1

/-- C3: on entry to FOUND with base pointer b and configured Saturation s and
ReflectionIntensity i, the found part completes; its stores are exactly one store of
the single-precision value of clamp(s, -1, 1) to each of b-0xDC0 and b-0xDD0 and one of
clamp(i, -10, 10) to each of b-0xD60 and b-0xD70, and afterwards the fields hold those
values, the two fields of a pair the same one.  clamp(v, lo, hi) is lo if v < lo, hi if
v > hi and v otherwise: 2.0 gives 1.0, -5.0 gives -1.0, 0.075 is unchanged, 20.0 gives
10.0 and -50.0 gives -10.0; a zero passes through with its sign, -0.0 as -0.0 and 0.0 as
0.0. -/
theorem found_writes_clamped (f32 : Double → Nat) (chrome : Value) (base b : Nat) (st : State)
    (s i : Double) (hs : doubleField chrome "Saturation" = some s)
    (hi : doubleField chrome "ReflectionIntensity" = some i) :
    (∃ st1, chromeFound f32 chrome base b st = Result.done st1 ∧
      writesOf st1.trace = writesOf st.trace ++
        [Event.write (subDW b 0xDC0) 4 (f32 (clamp s (.ofRat (-1)) (.ofRat 1))),
         Event.write (subDW b 0xDD0) 4 (f32 (clamp s (.ofRat (-1)) (.ofRat 1))),
         Event.write (subDW b 0xD60) 4 (f32 (clamp i (.ofRat (-10)) (.ofRat 10))),
         Event.write (subDW b 0xD70) 4 (f32 (clamp i (.ofRat (-10)) (.ofRat 10)))] ∧
      ∀ j, j < 4 →
        st1.mem (subDW b 0xDC0 + j) = byteAt (f32 (clamp s (.ofRat (-1)) (.ofRat 1))) j ∧
        st1.mem (subDW b 0xDD0 + j) = byteAt (f32 (clamp s (.ofRat (-1)) (.ofRat 1))) j ∧
        st1.mem (subDW b 0xD60 + j) = byteAt (f32 (clamp i (.ofRat (-10)) (.ofRat 10))) j ∧
        st1.mem (subDW b 0xD70 + j) = byteAt (f32 (clamp i (.ofRat (-10)) (.ofRat 10))) j) ∧
    (∀ v lo hi : Double, clamp v lo hi =
      if v.toRat < lo.toRat then lo else if v.toRat > hi.toRat then hi else v) ∧
    clamp (.ofRat 2) (.ofRat (-1)) (.ofRat 1) = .ofRat 1 ∧
    clamp (.ofRat (-5)) (.ofRat (-1)) (.ofRat 1) = .ofRat (-1) ∧
    clamp (.ofRat (3 / 40)) (.ofRat (-1)) (.ofRat 1) = .ofRat (3 / 40) ∧
    clamp (.ofRat 20) (.ofRat (-10)) (.ofRat 10) = .ofRat 10 ∧
    clamp (.ofRat (-50)) (.ofRat (-10)) (.ofRat 10) = .ofRat (-10) ∧
    clamp .negZero (.ofRat (-1)) (.ofRat 1) = .negZero ∧
    clamp (.ofRat 0) (.ofRat (-10)) (.ofRat 10) = .ofRat 0 := by
  refine ⟨⟨_, chromeFound_done f32 chrome base b st s i hs hi,
    (chromeFound_done_obs f32 chrome base b st s i hs hi).1, ?_⟩, ?_, ?_, ?_, ?_, ?_, ?_, ?_, ?_⟩
  · intro j hj
    obtain ⟨a1, a2, a3, a4, a5, a6⟩ := chromeFields_apart b j hj
    have i1 : subDW b 0xDC0 ≤ subDW b 0xDC0 + j ∧ subDW b 0xDC0 + j < subDW b 0xDC0 + 4 := by
      omega
    have i2 : subDW b 0xDD0 ≤ subDW b 0xDD0 + j ∧ subDW b 0xDD0 + j < subDW b 0xDD0 + 4 := by
      omega
    have i3 : subDW b 0xD60 ≤ subDW b 0xD60 + j ∧ subDW b 0xD60 + j < subDW b 0xD60 + 4 := by
      omega
    have i4 : subDW b 0xD70 ≤ subDW b 0xD70 + j ∧ subDW b 0xD70 + j < subDW b 0xD70 + 4 := by
      omega
    rw [chromeFound_done_mem f32 chrome base b st s i hs hi]
    refine ⟨?_, ?_, ?_, ?_⟩
    · rw [setBytes_out _ _ _ _ _ a3, setBytes_out _ _ _ _ _ a2, setBytes_out _ _ _ _ _ a1,
        setBytes_in _ _ _ _ _ i1, Nat.add_sub_cancel_left]
    · rw [setBytes_out _ _ _ _ _ a5, setBytes_out _ _ _ _ _ a4, setBytes_in _ _ _ _ _ i2,
        Nat.add_sub_cancel_left]
    · rw [setBytes_out _ _ _ _ _ a6, setBytes_in _ _ _ _ _ i3, Nat.add_sub_cancel_left]
    · rw [setBytes_in _ _ _ _ _ i4, Nat.add_sub_cancel_left]
  · intro v lo hi
    rfl
  · norm_num [clamp, Double.toRat]
  · norm_num [clamp, Double.toRat]
  · norm_num [clamp, Double.toRat]
  · norm_num [clamp, Double.toRat]
  · norm_num [clamp, Double.toRat]
  · norm_num [clamp, Double.toRat]
  · norm_num [clamp, Double.toRat]

/-- C3 at the pointer 0x20000: with the default chrome group both saturation fields
receive the conversion of 0.075 and both intensity fields that of 6.75; with Saturation
-0.0 and ReflectionIntensity 0.0 the saturation fields receive the word of -0.0 and the
intensity fields the word of 0.0. -/
theorem found_writes_clamped_witness :
    (∃ st1, chromeFound sampleF32 defaultChrome 0x400000 0x20000 blankState = Result.done st1 ∧
      writesOf st1.trace = writesOf blankState.trace ++
        [Event.write (subDW 0x20000 0xDC0) 4
           (sampleF32 (clamp (.ofRat (3 / 40)) (.ofRat (-1)) (.ofRat 1))),
         Event.write (subDW 0x20000 0xDD0) 4
           (sampleF32 (clamp (.ofRat (3 / 40)) (.ofRat (-1)) (.ofRat 1))),
         Event.write (subDW 0x20000 0xD60) 4
           (sampleF32 (clamp (.ofRat (27 / 4)) (.ofRat (-10)) (.ofRat 10))),
         Event.write (subDW 0x20000 0xD70) 4
           (sampleF32 (clamp (.ofRat (27 / 4)) (.ofRat (-10)) (.ofRat 10)))]) ∧
    (∃ st1, chromeFound sampleF32 signedZeroChrome 0x400000 0x20000 blankState =
        Result.done st1 ∧
      writesOf st1.trace =
        [Event.write (subDW 0x20000 0xDC0) 4 0x80000000,
         Event.write (subDW 0x20000 0xDD0) 4 0x80000000,
         Event.write (subDW 0x20000 0xD60) 4 0,
         Event.write (subDW 0x20000 0xD70) 4 0]) := by
  constructor
  · obtain ⟨st1, h, hw, -⟩ :=
      (found_writes_clamped sampleF32 defaultChrome 0x400000 0x20000 blankState
        (.ofRat (3 / 40)) (.ofRat (27 / 4)) rfl rfl).1
    exact ⟨st1, h, hw⟩
  · obtain ⟨⟨st1, h, hw, -⟩, -, -, -, -, -, -, hz, hp⟩ :=
      found_writes_clamped sampleF32 signedZeroChrome 0x400000 0x20000 blankState
        .negZero (.ofRat 0) rfl rfl
    refine ⟨st1, h, ?_⟩
    rw [hw, hz, hp]
    simp [writesOf, blankState, sampleF32]

/-- C4: for every target range (relative or absolute, of positive size) whose pages all
have the protection p, constructing an AllAccess scope stores p in mOldProtect and
gives every page of the range read-write-execute, leaving the other pages alone; and
destroying the scope, in any state whose protections are as the constructor left them,
performs exactly one protection change, to p over the same range, after which every
page has the protection it had before the scope. -/
theorem allAccess_scope_restores (base rva size addr p : Nat) (makeAbs : Bool) (st : State)
    (haddr : addr = if makeAbs then makeabs base rva else rva)
    (hp : ∀ pg, pageOf addr ≤ pg → pg * 4096 < addr + size → st.prot pg = p)
    (hsize : 0 < size) :
    (AllAccess.ctor base rva size makeAbs st).1.mAddr = addr ∧
    (AllAccess.ctor base rva size makeAbs st).1.mOldProtect = p ∧
    (∀ pg, pageOf addr ≤ pg → pg * 4096 < addr + size →
      (AllAccess.ctor base rva size makeAbs st).2.prot pg = PAGE_EXECUTE_READWRITE) ∧
    (∀ pg, ¬ (pageOf addr ≤ pg ∧ pg * 4096 < addr + size) →
      (AllAccess.ctor base rva size makeAbs st).2.prot pg = st.prot pg) ∧
    ∀ st1 : State, st1.prot = (AllAccess.ctor base rva size makeAbs st).2.prot →
      ((AllAccess.ctor base rva size makeAbs st).1.dtor st1).trace =
        st1.trace ++ [Event.protect addr size p] ∧
      ((AllAccess.ctor base rva size makeAbs st).1.dtor st1).mem = st1.mem ∧
      ((AllAccess.ctor base rva size makeAbs st).1.dtor st1).prot = st.prot := by
  have hfirst : st.prot (pageOf addr) = p := by
    apply hp (pageOf addr) (le_refl _)
    unfold pageOf
    omega
  rw [ctor_fst, ctor_snd, ← haddr]
  refine ⟨rfl, hfirst, ?_, ?_, ?_⟩
  · intro pg h1 h2
    exact setProt_in _ _ _ _ _ ⟨h1, h2⟩
  · intro pg h
    exact setProt_out _ _ _ _ _ h
  · intro st1 h1
    rw [dtor_eq]
    simp only at h1
    refine ⟨?_, ?_, ?_⟩
    · simp only [hfirst]
    · simp only
    · simp only [h1, hfirst]
      exact setProt_restore_uniform st.prot addr size _ p hp

/-- C4 at the relative range of the first resolution scope, for pages that start
no-access, read-only, read-write and read-write-execute. -/
theorem allAccess_scope_restores_witness :
    ((sampleScope 0x01).1.mOldProtect = 0x01 ∧
      ((sampleScope 0x01).1.dtor (sampleScope 0x01).2).prot = (uniformState 0x01).prot) ∧
    ((sampleScope 0x02).1.mOldProtect = 0x02 ∧
      ((sampleScope 0x02).1.dtor (sampleScope 0x02).2).prot = (uniformState 0x02).prot) ∧
    ((sampleScope 0x04).1.mOldProtect = 0x04 ∧
      ((sampleScope 0x04).1.dtor (sampleScope 0x04).2).prot = (uniformState 0x04).prot) ∧
    ((sampleScope 0x40).1.mOldProtect = 0x40 ∧
      ((sampleScope 0x40).1.dtor (sampleScope 0x40).2).prot = (uniformState 0x40).prot) := by
  have key : ∀ p, (sampleScope p).1.mOldProtect = p ∧
      ((sampleScope p).1.dtor (sampleScope p).2).prot = (uniformState p).prot := by
    intro p
    obtain ⟨-, h2, -, -, h5⟩ := allAccess_scope_restores 0x400000 0x22CA04 2 0x62CA04 p true
      (uniformState p) (by decide) (fun _ _ _ => rfl) (by decide)
    exact ⟨h2, (h5 _ rfl).2.2⟩
  exact ⟨key _, key _, key _, key _⟩

/-- C5: with chrome enabled and both values configured, if the first N reads of the
pointer slot return null and read N returns a non-null pointer p whose 7 bytes at
p-0xE24 are "CHROME" with its terminator when the condition is evaluated, then every
observation of more than N polls sees the loop leave SEARCHING for FOUND with pointer p
after exactly N sleeps and no store, and the chrome step complete with exactly one store
to each of p-0xDC0, p-0xDD0, p-0xD60, p-0xD70, no further sleep and N+1 reads of the
slot in all. -/
theorem discovery_after_nulls (f32 : Double → Nat) (host : Host) (cfg chrome : Value)
    (base : Nat) (st : State) (N p : Nat) (s i : Double)
    (hc : cfg.member "BetterChrome" = some chrome)
    (he : chrome.member "Enabled" = some (Value.bool true))
    (hs : doubleField chrome "Saturation" = some s)
    (hi : doubleField chrome "ReflectionIntensity" = some i)
    (hnull : ∀ k, k < N → readAt host (makeabs base 0x8B4208) st.mem k = 0)
    (hp : readAt host (makeabs base 0x8B4208) st.mem N = p) (hp0 : p ≠ 0)
    (hsig : bytesAt (memAtCheck host st.mem N) (subDW p 0xE24) chromeLit)
    (fuel : Nat) (hfuel : N < fuel) :
    (∃ st0, (chromeDiscover host fuel base st).2 = Poll.found p st0 ∧
      sleepsOf st0.trace = sleepsOf st.trace + N ∧
      writesOf st0.trace = writesOf st.trace) ∧
    (∃ st1, chromePatch f32 host fuel cfg base st = Result.done st1 ∧
      sleepsOf st1.trace = sleepsOf st.trace + N ∧
      pollsOf (makeabs base 0x8B4208) st1.trace =
        pollsOf (makeabs base 0x8B4208) st.trace + (N + 1) ∧
      writesOf st1.trace = writesOf st.trace ++
        [Event.write (subDW p 0xDC0) 4 (f32 (clamp s (.ofRat (-1)) (.ofRat 1))),
         Event.write (subDW p 0xDD0) 4 (f32 (clamp s (.ofRat (-1)) (.ofRat 1))),
         Event.write (subDW p 0xD60) 4 (f32 (clamp i (.ofRat (-10)) (.ofRat 10))),
         Event.write (subDW p 0xD70) 4 (f32 (clamp i (.ofRat (-10)) (.ofRat 10)))]) := by
  have hN : ¬ keepsPolling host (makeabs base 0x8B4208) st.mem N := by
    unfold keepsPolling
    rw [hp]
    intro h
    rcases h with h | h
    · exact hp0 h
    · exact h hsig
  obtain ⟨st0, h1, -, -, h4, h5, h6⟩ := discover_found host fuel base N st
    (fun j hj => Or.inl (hnull j hj)) hN hfuel
  rw [hp] at h1
  obtain ⟨o1, o2, o3⟩ := chromeFound_done_obs f32 chrome base p st0 s i hs hi
  refine ⟨⟨st0, h1, h5, h4⟩, _, chromePatch_found_done f32 host fuel cfg chrome base p st st0 _
    hc (boolField_bool chrome _ true he) h1 (chromeFound_done f32 chrome base p st0 s i hs hi),
    ?_, ?_, ?_⟩
  · simp only [sleepsOf_append, o2, h5]
    simp [sleepsOf]
  · simp only [pollsOf_append, o3, h6]
    simp [pollsOf]
  · simp only [writesOf_append, o1, h4]
    simp [writesOf, Event.isWrite]

/-- C5 with a host that installs the chrome block during the second sleep: reads 0, 1
and 2 of the slot are null, read 3 returns 0x20000, and the loop sleeps 3 times. -/
theorem discovery_after_nulls_witness :
    ∃ st1, chromePatch sampleF32 (lateHost 0xCB4208 0x20000) 4 defaultConfig 0x400000
        blankState = Result.done st1 ∧
      sleepsOf st1.trace = 3 ∧ pollsOf 0xCB4208 st1.trace = 4 ∧
      (writesOf st1.trace).length = 4 := by
  have e1 : makeabs 0x400000 0x8B4208 = 0xCB4208 := by decide
  obtain ⟨-, st1, h, hs, hp, hw⟩ := discovery_after_nulls sampleF32 (lateHost 0xCB4208 0x20000)
    defaultConfig defaultChrome 0x400000 blankState 3 0x20000 (.ofRat (3 / 40))
    (.ofRat (27 / 4)) rfl rfl rfl rfl
    (by rw [e1]; exact lateHost_reads) (by rw [e1]; exact lateHost_read3) (by decide)
    (by
      rw [lateHost_mem3]
      simp [bytesAt, chromeLit, chromeMemory, setBytes, byteAt, subDW])
    4 (by decide)
  rw [e1] at hp
  refine ⟨st1, h, ?_, ?_, ?_⟩
  · rw [hs]; simp [sleepsOf, blankState]
  · rw [hp]; simp [pollsOf, blankState]
  · rw [hw]; simp [writesOf, blankState]

/-- C6: with chrome enabled, if at every poll the pointer read from the slot is null or
the 7 bytes at (pointer - 0xE24) are not "CHROME" with its terminator, then for every
number of polls the chrome step is still SEARCHING: it has not entered FOUND, its trace
holds no store beyond those before it, memory is as the host alone left it, and it has
slept once per poll; and evaluating the loop condition on a null pointer reads nothing. -/
theorem never_found_only_polls (f32 : Double → Nat) (host : Host) (cfg chrome : Value)
    (base : Nat) (st : State)
    (hc : cfg.member "BetterChrome" = some chrome)
    (he : chrome.member "Enabled" = some (Value.bool true))
    (hbad : ∀ k, readAt host (makeabs base 0x8B4208) st.mem k = 0 ∨
      ¬ bytesAt (memAtCheck host st.mem k)
        (subDW (readAt host (makeabs base 0x8B4208) st.mem k) 0xE24) chromeLit) :
    (∀ fuel, ∃ st1, chromePatch f32 host fuel cfg base st = Result.searching st1 ∧
      writesOf st1.trace = writesOf st.trace ∧
      st1.mem = memAtCheck host st.mem fuel ∧
      sleepsOf st1.trace = sleepsOf st.trace + fuel) ∧
    (∀ st0 : State, loopCond 0 st0 = (true, st0)) := by
  refine ⟨?_, loopCond_null⟩
  intro fuel
  obtain ⟨st1, h1, h2, h3, h4, -⟩ := discover_searching host fuel base st (fun j _ => hbad j)
  exact ⟨st1, chromePatch_searching f32 host fuel cfg chrome base st st1 hc
    (boolField_bool chrome _ true he) h1, h3, h2, h4⟩

/-- C6 at the default configuration with blank memory and an idle host: after 10 polls
the chrome step is still searching and has stored nothing. -/
theorem never_found_only_polls_witness :
    ∃ st1, chromePatch sampleF32 idleHost 10 defaultConfig 0x400000 blankState =
        Result.searching st1 ∧ writesOf st1.trace = [] ∧ sleepsOf st1.trace = 10 := by
  have hpeek : peek32 blankState.mem (makeabs 0x400000 0x8B4208) = 0 := by
    simp [peek32, blankState]
  obtain ⟨st1, h, hw, -, hs⟩ := (never_found_only_polls sampleF32 idleHost defaultConfig
    defaultChrome 0x400000 blankState rfl rfl
    (fun k => Or.inl (by rw [idleHost_readAt]; exact hpeek))).1 10
  refine ⟨st1, h, ?_, ?_⟩
  · rw [hw]; simp [writesOf, blankState]
  · rw [hs]; simp [sleepsOf, blankState]

/-- C7, as amended: for every configuration and every run of Main, a field that fails
to decode fails the run at the step that decodes it, with the state the earlier steps
left (so no slot of a later step is written): ReflectionResolution at the resolution
step, after that step's first store; BetterReflectionLODs at the LOD step;
BetterReflectionDrawDistance at the draw-distance step; BetterChrome or its Enabled at
the chrome step.  With chrome enabled, a Saturation or ReflectionIntensity that is not a
number fails the run at the chrome step, before any store of that step, once the
discovery loop has found the signature; as long as every poll keeps the loop going the
run is still searching and has not failed. -/
theorem decode_failure_stops_run (f32 : Double → Nat) (host : Host) (fuel : Nat) (cfg : Value)
    (base : Nat) (st : State) :
    (uintField cfg "ReflectionResolution" = none →
      ∃ st1, Main f32 host fuel cfg base st = Result.failed Step.resolution st1 ∧
        writesOf st1.trace =
          writesOf st.trace ++ [Event.write (makeabs base 0x22CA04) 2 0x9090]) ∧
    (∀ st1, resolutionPatch cfg base st = Result.done st1 →
      boolField cfg "BetterReflectionLODs" = none →
      Main f32 host fuel cfg base st = Result.failed Step.lod st1) ∧
    (∀ st2, (resolutionPatch cfg base st).andThen (lodPatch cfg base) = Result.done st2 →
      boolField cfg "BetterReflectionDrawDistance" = none →
      Main f32 host fuel cfg base st = Result.failed Step.drawDistance st2) ∧
    (∀ st3, staticPatches f32 cfg base st = Result.done st3 →
      (cfg.member "BetterChrome" = none ∨
        ∃ chrome, cfg.member "BetterChrome" = some chrome ∧
          boolField chrome "Enabled" = none) →
      Main f32 host fuel cfg base st = Result.failed Step.chrome st3) ∧
    (∀ st3 chrome, staticPatches f32 cfg base st = Result.done st3 →
      cfg.member "BetterChrome" = some chrome →
      boolField chrome "Enabled" = some true →
      (doubleField chrome "Saturation" = none ∨
        doubleField chrome "ReflectionIntensity" = none) →
      (∀ b st4, (chromeDiscover host fuel base st3).2 = Poll.found b st4 →
        ∃ st5, Main f32 host fuel cfg base st = Result.failed Step.chrome st5 ∧
          writesOf st5.trace = writesOf st3.trace ∧ st5.mem = st4.mem) ∧
      ((∀ k, keepsPolling host (makeabs base 0x8B4208) st3.mem k) →
        ∃ st5, Main f32 host fuel cfg base st = Result.searching st5)) := by
  refine ⟨?_, ?_, ?_, ?_, ?_⟩
  · intro hbad
    refine ⟨_, ?_, resolutionPatch_fail_writes cfg base st hbad⟩
    unfold Main staticPatches
    conv_lhs => rw [resolutionPatch_fail cfg base st hbad]
    simp only [andThen_failed]
  · intro st1 h1 hb
    unfold Main staticPatches
    rw [h1, andThen_done, lodPatch_fail cfg base st1 hb]
    simp only [andThen_failed]
  · intro st2 h2 hb
    unfold Main staticPatches
    rw [h2, andThen_done, drawDistancePatch_fail f32 cfg base st2 hb]
    simp only [andThen_failed]
  · intro st3 h3 hb
    unfold Main
    rw [h3, andThen_done]
    rcases hb with hb | ⟨chrome, hm, hb⟩
    · exact chromePatch_fail_member f32 host fuel cfg base st3 hb
    · exact chromePatch_fail_enabled f32 host fuel cfg chrome base st3 hm hb
  · intro st3 chrome h3 hm he hbad
    constructor
    · intro b st4 hd
      have hf := chromeFound_fail f32 chrome base b st4 hbad
      obtain ⟨-, f2, f3, -⟩ := chromeFound_failed f32 chrome base b st4 _ _ hf
      have hw := (chromeDiscover_inv host fuel base st3).2.1
      rw [hd] at hw
      simp only [Poll.state] at hw
      refine ⟨_, ?_, ?_, f2⟩
      · unfold Main
        rw [h3, andThen_done]
        exact chromePatch_found_failed f32 host fuel cfg chrome base b st3 st4 _ _ hm he hd hf
      · rw [f3, hw]
    · intro hk
      obtain ⟨st5, h5, -⟩ := discover_searching host fuel base st3 (fun j _ => hk j)
      refine ⟨st5, ?_⟩
      unfold Main
      rw [h3, andThen_done]
      exact chromePatch_searching f32 host fuel cfg chrome base st3 st5 hm he h5

/-- C7, counterexample: with chrome enabled, the string "high" for Saturation, an idle
host and a null pointer slot, no observation of the run, however long, ends in a
failure at any step. -/
theorem badSaturation_run_never_fails :
    ¬ ∃ fuel s st1, Main sampleF32 idleHost fuel badSaturationConfig 0x400000 blankState =
      Result.failed s st1 := by
  rintro ⟨fuel, s, st1, h⟩
  have h3 := staticPatches_done sampleF32 badSaturationConfig 0x400000 blankState 1024 true true
    (by decide) (by decide) (by decide)
  have hpeek : peek32 (staticPatches sampleF32 badSaturationConfig 0x400000 blankState).state.mem
      (makeabs 0x400000 0x8B4208) = 0 := by
    rw [staticPatches_peek_slot]
    simp [peek32, blankState]
  obtain ⟨st5, h5, -⟩ := discover_searching idleHost fuel 0x400000
    (staticPatches sampleF32 badSaturationConfig 0x400000 blankState).state
    (fun j _ => idleHost_keepsPolling _ _ hpeek j)
  unfold Main at h
  rw [h3, andThen_done, chromePatch_searching sampleF32 idleHost fuel badSaturationConfig
    badSaturationChrome 0x400000 _ st5 rfl rfl h5] at h
  exact Result.noConfusion h

/-- C7 as amended, at two configurations: without ReflectionResolution the run fails
in the resolution step; with a string for Saturation and the chrome block in place it
fails in the chrome step. -/
theorem decode_failure_stops_run_witness :
    (∃ st1, Main sampleF32 idleHost 1 noResolutionConfig 0x400000 blankState =
      Result.failed Step.resolution st1) ∧
    (∃ st5, Main sampleF32 idleHost 1 badSaturationConfig 0x400000
      (chromeState 0xCB4208 0x20000) = Result.failed Step.chrome st5) := by
  constructor
  · obtain ⟨st1, h, -⟩ := (decode_failure_stops_run sampleF32 idleHost 1 noResolutionConfig
      0x400000 blankState).1 (by decide)
    exact ⟨st1, h⟩
  · obtain ⟨st0, h0⟩ := chromeState_found sampleF32 badSaturationConfig 1 (by decide)
    obtain ⟨st5, h, -⟩ := ((decode_failure_stops_run sampleF32 idleHost 1 badSaturationConfig
      0x400000 (chromeState 0xCB4208 0x20000)).2.2.2.2 _ badSaturationChrome
      (staticPatches_done sampleF32 badSaturationConfig 0x400000 _ 1024 true true
        (by decide) (by decide) (by decide)) rfl rfl (Or.inl rfl)).1 0x20000 st0 h0
    exact ⟨st5, h⟩

/-- C8, as amended: the pointer slot polled by the Deferred Discovery Loop is relative
to the module: for every load base the scope over it and every pointer-sized read of
the loop are at (load_base + 0x8B4208) modulo 2^32, the same address at every poll of a
run, read at least once, which is the constant 0x8B4208 itself only for a load base that
is 0 modulo 2^32; relative mode gives load_base + offset modulo 2^32 and absolute mode
the offset unchanged. -/
theorem pointer_slot_is_module_relative (host : Host) (fuel base : Nat) (st : State) :
    (chromeDiscover host fuel base st).1.mAddr = makeabs base 0x8B4208 ∧
    makeabs base 0x8B4208 = (base + 0x8B4208) % 4294967296 ∧
    (makeabs base 0x8B4208 = 0x8B4208 ↔ base % 4294967296 = 0) ∧
    pollsOf (makeabs base 0x8B4208) st.trace + 1 ≤
      pollsOf (makeabs base 0x8B4208) (chromeDiscover host fuel base st).2.state.trace ∧
    (∀ a, a ≠ makeabs base 0x8B4208 →
      pollsOf a (chromeDiscover host fuel base st).2.state.trace = pollsOf a st.trace) ∧
    (∀ (rva size : Nat) (st0 : State),
      (AllAccess.ctor base rva size true st0).1.mAddr = (base + rva) % 4294967296 ∧
      (AllAccess.ctor base rva size false st0).1.mAddr = rva) := by
  refine ⟨?_, ?_, ?_, ?_, (chromeDiscover_inv host fuel base st).2.2, ?_⟩
  · rw [chromeDiscover_fst]
  · unfold makeabs; exact Eq.refl _
  · unfold makeabs; omega
  · rw [chromeDiscover_snd]
    refine le_trans ?_ (pollLoop_polls_le host _ _ fuel 0 _ _)
    simp [pollsOf]
  · intro rva size st0
    rw [ctor_fst, ctor_fst]
    simp only [if_true, Bool.false_eq_true, if_false]
    unfold makeabs
    exact ⟨Eq.refl _, trivial⟩

/-- C8, counterexample: with a valid chrome block whose pointer is stored at the
absolute address 0x8B4208 and an idle host, a module loaded at 0x400000 opens its scope
at 0xCB4208, never reads address 0x8B4208 and keeps searching, whereas a load base of 0
finds the block at once: the polled address moves with the load base. -/
theorem slot_address_moves_with_base :
    (chromeDiscover idleHost 2 0x400000 (chromeState 0x8B4208 0x20000)).1.mAddr = 0xCB4208 ∧
    pollsOf 0x8B4208
      (chromeDiscover idleHost 2 0x400000 (chromeState 0x8B4208 0x20000)).2.state.trace = 0 ∧
    (∃ st1, (chromeDiscover idleHost 2 0x400000 (chromeState 0x8B4208 0x20000)).2 =
      Poll.searching st1) ∧
    (∃ st1, (chromeDiscover idleHost 2 0 (chromeState 0x8B4208 0x20000)).2 =
      Poll.found 0x20000 st1) := by
  have e1 : makeabs 0x400000 0x8B4208 = 0xCB4208 := by decide
  have e0 : makeabs 0 0x8B4208 = 0x8B4208 := by decide
  refine ⟨?_, ?_, ?_, ?_⟩
  · rw [chromeDiscover_fst, e1]
  · rw [(chromeDiscover_inv idleHost 2 0x400000 (chromeState 0x8B4208 0x20000)).2.2 0x8B4208
      (by rw [e1]; decide)]
    simp [pollsOf, chromeState]
  · have hpeek : peek32 (chromeState 0x8B4208 0x20000).mem (makeabs 0x400000 0x8B4208) = 0 := by
      rw [e1]
      simp [peek32, chromeState, chromeMemory, setBytes, byteAt, subDW]
    obtain ⟨st1, h1, -⟩ := discover_searching idleHost 2 0x400000
      (chromeState 0x8B4208 0x20000) (fun j _ => idleHost_keepsPolling _ _ hpeek j)
    exact ⟨st1, h1⟩
  · have hpeek : peek32 (chromeState 0x8B4208 0x20000).mem (makeabs 0 0x8B4208) = 0x20000 := by
      rw [e0]
      simp [peek32, chromeState, chromeMemory, setBytes, byteAt, subDW]
    have hN : ¬ keepsPolling idleHost (makeabs 0 0x8B4208)
        (chromeState 0x8B4208 0x20000).mem 0 := by
      unfold keepsPolling
      rw [idleHost_readAt, idleHost_memAtCheck, hpeek]
      intro h
      rcases h with h | h
      · exact absurd h (by decide)
      · apply h
        simp [bytesAt, chromeLit, chromeState, chromeMemory, setBytes, byteAt, subDW]
    obtain ⟨st1, h1, -⟩ := discover_found idleHost 2 0 0 (chromeState 0x8B4208 0x20000)
      (fun j hj => absurd hj (by omega)) hN (by omega)
    rw [idleHost_readAt, hpeek] at h1
    exact ⟨st1, h1⟩

/-- C8 as amended, at load base 0x400000: the scope is at 0xCB4208 and the loop reads
nothing at 0x8B4208. -/
theorem pointer_slot_is_module_relative_witness :
    (chromeDiscover idleHost 3 0x400000 blankState).1.mAddr = makeabs 0x400000 0x8B4208 ∧
    pollsOf 0x8B4208 (chromeDiscover idleHost 3 0x400000 blankState).2.state.trace =
      pollsOf 0x8B4208 blankState.trace := by
  obtain ⟨h1, -, -, -, h5, -⟩ := pointer_slot_is_module_relative idleHost 3 0x400000 blankState
  exact ⟨h1, h5 0x8B4208 (by decide)⟩

/-- C9: for every prior state and every configuration whose ReflectionResolution fails
to decode, every run of Main fails in the resolution step after its first store and
before its second: the 2 bytes at load_base+0x22CA04 are 0x90, 0x90, the only store the
run has made is that one, and the 4 bytes at load_base+0x22CA07 are as before.  By
contrast a failure of the LOD or draw-distance step leaves the whole state as the step
found it, and a failure of the chrome step adds no store to the trace. -/
theorem resolution_failure_not_atomic (f32 : Double → Nat) (host : Host) (fuel : Nat)
    (cfg : Value) (base : Nat) (st : State)
    (hbad : uintField cfg "ReflectionResolution" = none) :
    (∃ st1, Main f32 host fuel cfg base st = Result.failed Step.resolution st1 ∧
      st1.mem (makeabs base 0x22CA04) = 0x90 ∧
      st1.mem (makeabs base 0x22CA04 + 1) = 0x90 ∧
      (∀ i, i < 4 → st1.mem (makeabs base 0x22CA07 + i) = st.mem (makeabs base 0x22CA07 + i)) ∧
      writesOf st1.trace = writesOf st.trace ++ [Event.write (makeabs base 0x22CA04) 2 0x9090] ∧
      ((st.mem (makeabs base 0x22CA04) ≠ 0x90 ∨ st.mem (makeabs base 0x22CA04 + 1) ≠ 0x90) →
        st1.mem ≠ st.mem)) ∧
    (∀ (st0 st2 : State) (s : Step), lodPatch cfg base st0 = Result.failed s st2 →
      s = Step.lod ∧ st2 = st0) ∧
    (∀ (st0 st2 : State) (s : Step), drawDistancePatch f32 cfg base st0 = Result.failed s st2 →
      s = Step.drawDistance ∧ st2 = st0) ∧
    (∀ (st0 st2 : State) (s : Step),
      chromePatch f32 host fuel cfg base st0 = Result.failed s st2 →
      s = Step.chrome ∧ writesOf st2.trace = writesOf st0.trace) := by
  have hmem := resolutionPatch_fail_mem cfg base st hbad
  have hrun : Main f32 host fuel cfg base st =
      Result.failed Step.resolution (resolutionPatch cfg base st).state := by
    unfold Main staticPatches
    conv_lhs => rw [resolutionPatch_fail cfg base st hbad]
    simp only [andThen_failed]
  have i0 : makeabs base 0x22CA04 ≤ makeabs base 0x22CA04 ∧
      makeabs base 0x22CA04 < makeabs base 0x22CA04 + 2 := by omega
  have i1 : makeabs base 0x22CA04 ≤ makeabs base 0x22CA04 + 1 ∧
      makeabs base 0x22CA04 + 1 < makeabs base 0x22CA04 + 2 := by omega
  have b0 : (resolutionPatch cfg base st).state.mem (makeabs base 0x22CA04) = 0x90 := by
    rw [hmem, setBytes_in _ _ _ _ _ i0, Nat.sub_self]
    norm_num [byteAt]
  have b1 : (resolutionPatch cfg base st).state.mem (makeabs base 0x22CA04 + 1) = 0x90 := by
    rw [hmem, setBytes_in _ _ _ _ _ i1, Nat.add_sub_cancel_left]
    norm_num [byteAt]
  refine ⟨⟨_, hrun, b0, b1, ?_, resolutionPatch_fail_writes cfg base st hbad, ?_⟩, ?_, ?_, ?_⟩
  · intro i hi
    have ho : ¬ (makeabs base 0x22CA04 ≤ makeabs base 0x22CA07 + i ∧
        makeabs base 0x22CA07 + i < makeabs base 0x22CA04 + 2) := by
      unfold makeabs; omega
    rw [hmem, setBytes_out _ _ _ _ _ ho]
  · intro hne heq
    rw [heq] at b0 b1
    rcases hne with h | h
    · exact h b0
    · exact h b1
  · intro st0 st2 s h
    obtain ⟨h1, h2, -⟩ := lodPatch_failed cfg base st0 st2 s h
    exact ⟨h1, h2⟩
  · intro st0 st2 s h
    obtain ⟨h1, h2, -⟩ := drawDistancePatch_failed f32 cfg base st0 st2 s h
    exact ⟨h1, h2⟩
  · intro st0 st2 s h
    exact chromePatch_failed f32 host fuel cfg base st0 st2 s h

/-- C9 at the configuration without ReflectionResolution: the run fails in the
resolution step with the two no-op bytes written. -/
theorem resolution_failure_not_atomic_witness :
    uintField noResolutionConfig "ReflectionResolution" = none ∧
    ∃ st1, Main sampleF32 idleHost 3 noResolutionConfig 0x400000 blankState =
        Result.failed Step.resolution st1 ∧
      st1.mem (makeabs 0x400000 0x22CA04) = 0x90 ∧
      st1.mem (makeabs 0x400000 0x22CA04 + 1) = 0x90 ∧ st1.mem ≠ blankState.mem := by
  refine ⟨by decide, ?_⟩
  obtain ⟨st1, h, h0, h1, -, -, hne⟩ := (resolution_failure_not_atomic sampleF32 idleHost 3
    noResolutionConfig 0x400000 blankState (by decide)).1
  exact ⟨st1, h, h0, h1, hne (Or.inl (by simp [blankState]))⟩

/-- C10: for every run of Main that completes, if the byte range of every scope the run
opens lies within one page (the two of the resolution step; the three of the LOD step
and the one of the draw-distance step when their flag is true; the pointer-slot scope
and the four field scopes when a pointer is discovered), then the protection of every
page after the run equals its protection before the run, although scopes that cover
the same page are open at the same time. -/
theorem protections_restored (f32 : Double → Nat) (host : Host) (fuel : Nat) (cfg : Value)
    (base : Nat) (st st1 : State)
    (hrun : Main f32 host fuel cfg base st = Result.done st1)
    (hres : onePage (makeabs base 0x22CA04) 2 ∧ onePage (makeabs base 0x22CA07) 4)
    (hlod : boolField cfg "BetterReflectionLODs" = some true →
      onePage (makeabs base 0x89E48C) 1 ∧ onePage (makeabs base 0x33D8BF) 1 ∧
        onePage (makeabs base 0x33DEBD) 4)
    (hdraw : boolField cfg "BetterReflectionDrawDistance" = some true →
      onePage (makeabs base 0x882D44) 4)
    (hchrome : ∀ st3 b st4, staticPatches f32 cfg base st = Result.done st3 →
      (chromeDiscover host fuel base st3).2 = Poll.found b st4 →
      onePage (makeabs base 0x8B4208) 4 ∧ onePage (subDW b 0xDC0) 4 ∧
        onePage (subDW b 0xDD0) 4 ∧ onePage (subDW b 0xD60) 4 ∧ onePage (subDW b 0xD70) 4) :
    st1.prot = st.prot := by
  unfold Main at hrun
  obtain ⟨st3, h3, hc⟩ := andThen_eq_done _ _ _ hrun
  have h3' := h3
  unfold staticPatches at h3
  obtain ⟨st2, h2, hd⟩ := andThen_eq_done _ _ _ h3
  obtain ⟨sta, h1, hl⟩ := andThen_eq_done _ _ _ h2
  obtain ⟨r, hu⟩ := resolutionPatch_eq_done cfg base st sta h1
  have e1 : sta.prot = st.prot := by
    have := resolutionPatch_done_prot cfg base r st hu hres.1 hres.2
    rw [h1, state_done] at this
    exact this
  have e2 : st2.prot = sta.prot := lodPatch_done_prot cfg base sta st2 hl hlod
  have e3 : st3.prot = st2.prot := drawDistancePatch_done_prot f32 cfg base st2 st3 hd hdraw
  have e4 : st1.prot = st3.prot := chromePatch_done_prot f32 host fuel cfg base st3 st1 hc
    (fun b st0 hf => hchrome st3 b st0 h3' hf)
  rw [e4, e3, e2, e1]

/-- C10 at the default configuration with the chrome block in place: the run completes
and every page is read-execute again, although the two resolution scopes share the page
of 0x62C000 and the four field scopes the page of 0x1F000. -/
theorem protections_restored_witness :
    (pageOf (makeabs 0x400000 0x22CA04) = pageOf (makeabs 0x400000 0x22CA07) ∧
      pageOf (subDW 0x20000 0xDC0) = pageOf (subDW 0x20000 0xD70)) ∧
    ∃ st1, Main sampleF32 idleHost 1 defaultConfig 0x400000 (chromeState 0xCB4208 0x20000) =
        Result.done st1 ∧ st1.prot = (chromeState 0xCB4208 0x20000).prot := by
  refine ⟨by decide, ?_⟩
  obtain ⟨st1, h⟩ := chromeState_run_done
  refine ⟨st1, h, protections_restored sampleF32 idleHost 1 defaultConfig 0x400000
    (chromeState 0xCB4208 0x20000) st1 h (by unfold onePage; decide)
    (fun _ => by unfold onePage; decide) (fun _ => by unfold onePage; decide) ?_⟩
  intro st3 b st4 h3 hd
  obtain ⟨st0, h0⟩ := chromeState_found sampleF32 defaultConfig 1 (by decide)
  have hst : st3 = (staticPatches sampleF32 defaultConfig 0x400000
      (chromeState 0xCB4208 0x20000)).state := by
    rw [h3, state_done]
  rw [hst, h0] at hd
  injection hd with hb _
  rw [← hb]
  unfold onePage
  decide

end NFSWHDReflections
